import Mathlib

/-!
Verification of the `cyberherd_messaging` message composition and publishing
core against its specification.

The Python sources (`services.py`, `message_builder.py`, `defaults.py`) are
shallowly embedded below.  Python strings are Lean `String`s, Python `None`
is `Option.none`, raised exceptions are `Option.none` results, and the
process randomness (`random.choice`) is an explicit oracle argument.
Python's ASCII string primitives (`str.strip`, `str.lower`, whitespace
classes) are modelled on their ASCII subset; the repository only ever feeds
them ASCII configuration values and hex identifiers.
-/

namespace CyberherdMessaging

/-! ## Python string primitives -/

/-- Whitespace characters recognised by Python's `str.strip()` and by the
regex class `\s` (ASCII subset: space, tab, newline, carriage return,
vertical tab, form feed). -/
def pyIsSpace (c : Char) : Bool :=
  c = ' ' || c = '\t' || c = '\n' || c = '\r' || c = '\x0b' || c = '\x0c'

/-- Models Python `str.strip()` on the character list. -/
def pyStripChars (cs : List Char) : List Char :=
  ((cs.dropWhile pyIsSpace).reverse.dropWhile pyIsSpace).reverse

/-- Models Python `str.strip()`. -/
def pyStrip (s : String) : String :=
  ⟨pyStripChars s.data⟩

/-- Models Python `str.lower()` (ASCII subset). -/
def pyLower (s : String) : String :=
  ⟨s.data.map Char.toLower⟩

/-- Hex digits accepted by Python's `string.hexdigits` / `bytes.fromhex`. -/
def isHexDigitPy (c : Char) : Bool :=
  ('0' ≤ c && c ≤ '9') || ('a' ≤ c && c ≤ 'f') || ('A' ≤ c && c ≤ 'F')

/-- Truthiness of an optional Python string (`None` and `""` are falsy). -/
def truthyOpt : Option String → Bool
  | none => false
  | some s => s ≠ ""

/-- Kernel-friendly model of `List.isPrefixOf` on characters: does the
first list start with the second? -/
def charsStart : List Char → List Char → Bool
  | _, [] => true
  | [], _ :: _ => false
  | c :: cs, d :: ds => c = d && charsStart cs ds

/-- Models Python `str.startswith`. -/
def pyStartsWith (s pat : String) : Bool := charsStart s.data pat.data

/-- Models Python `str.endswith`. -/
def pyEndsWith (s pat : String) : Bool := charsStart s.data.reverse pat.data.reverse

/-- Models Python slicing `s[n:]` (drop the first `n` characters). -/
def pyDrop (s : String) (n : Nat) : String := ⟨s.data.drop n⟩

/-! ## normalize_relay_hint (services.py lines 48-68) -/

/-- Embeds `normalize_relay_hint`: maps http(s) URLs to ws(s) URLs, accepts
ws:// and wss:// unchanged, and returns `none` for anything else. -/
def normalizeRelayHint (raw : Option String) : Option String :=
  match raw with
  | none => none
  | some r =>
    if r = "" then none
    else
      let s := pyStrip r
      if s = "" then none
      else if pyStartsWith s "wss://" || pyStartsWith s "ws://" then some s
      else if pyStartsWith s "https://" then some ("wss://" ++ pyDrop s 8)
      else if pyStartsWith s "http://" then some ("ws://" ++ pyDrop s 7)
      else none

/-! ## is_nostr_publishing_enabled (services.py lines 265-307) -/

/-- The setting values that `is_nostr_publishing_enabled` treats as
disabled, after trimming and lowercasing. -/
def disabledSettingValues : List String := ["0", "false", "no", "off", ""]

/-- Embeds `is_nostr_publishing_enabled`.  `setting` is the value of the
`nostr_publishing_enabled` row (`none` when the row is absent, which is
also the fallback used when the database read raises), and `avail` is the
cached nostrclient availability that the function returns when the setting
does not disable publishing. -/
def isNostrPublishingEnabled (setting : Option String) (avail : Bool) : Bool :=
  match setting with
  | some v =>
    let normalized := pyLower (pyStrip v)
    if normalized ∈ disabledSettingValues then false else avail
  | none => avail

/-! ## _pick_template (message_builder.py lines 77-81) -/

/-- Embeds `_pick_template`.  The body is
`try: return random.choice(list(pool.values())) except Exception: return next(iter(pool.values()))`.
`i` is the oracle index drawn by `random.choice` (always in range on a
non-empty pool); a failing draw falls into the `except` branch, which
returns the first value of the pool — and itself raises `StopIteration`
(modelled as `none`) when the pool is empty. -/
def pickTemplate {α : Type} (pool : List α) (i : Nat) : Option α :=
  match pool.get? i with
  | some v => some v
  | none => pool.head?

/-! ## Tag composition in publish_note (services.py lines 331-430) -/

/-- Embeds `_add_tag`: skips empty tuples, deduplicates on the full tuple
(the `seen_tags` set always holds exactly the members of `all_tags`), and
otherwise appends in insertion order. -/
def addTag (acc : List (List String)) (t : List String) : List (List String) :=
  if t = [] then acc
  else if t ∈ acc then acc
  else acc ++ [t]

/-- Embeds `_append_unique`: strips the candidate, drops empty results and
values already present, otherwise appends. -/
def appendUnique (target : List String) (candidate : String) : List String :=
  if pyStrip candidate = "" then target
  else if pyStrip candidate ∈ target then target
  else target ++ [pyStrip candidate]

/-- The accumulated reply event-id list `normalized_e_ids`: the `e_tags`
argument in order, then `reply_to_30311_event` when truthy, all stripped
and deduplicated. -/
def normalizedEIds (eTags : List String) (replyEvent : Option String) : List String :=
  let base := eTags.foldl appendUnique []
  match replyEvent with
  | some r => if r ≠ "" then appendUnique base r else base
  | none => base

/-- The accumulated mention pubkey list `normalized_p_ids`. -/
def normalizedPIds (pTags : List String) : List String :=
  pTags.foldl appendUnique []

/-- Modelled from the spec: `validate_pubkey_hex` is imported from
`message_builder` but its definition is not part of the sources; per the
spec it is a "strict 64-hex-character validation" of the candidate
(trimmed, 64 characters, all hex digits). -/
def validatePubkeyHex (p : String) : Bool :=
  let c := pyStrip p
  c.length = 64 && c.data.all isHexDigitPy

/-- The `validated_p_ids` filter: candidates passing validation are kept,
stripped and lowercased; the rest are dropped (with a debug log). -/
def validatedPIds (pTags : List String) : List String :=
  (normalizedPIds pTags).filterMap fun p =>
    if validatePubkeyHex p then some (pyLower (pyStrip p)) else none

/-- The NIP-10 threading tag for a single reply-to-root event id. -/
def rootTag (id hint : String) : List String := ["e", id, hint, "root"]

/-- The NIP-10 threading tag for the direct parent in a reply chain. -/
def replyTag (id hint : String) : List String := ["e", id, hint, "reply"]

/-- The NIP-10 mention tag for additional events (no relay hint). -/
def mentionTag (id : String) : List String := ["e", id, "", "mention"]

/-- The NIP-10 threading stage of `publish_note` (services.py lines
388-406): a single reply id yields one tag marked root, two or more yield
root, reply and mentions. -/
def eStage (acc0 : List (List String)) (eIds : List String) (hint : String) :
    List (List String) :=
  match eIds with
  | [] => acc0
  | [r0] => addTag acc0 (rootTag r0 hint)
  | r0 :: r1 :: rest =>
    let a := addTag acc0 (rootTag r0 hint)
    let b := addTag a (replyTag r1 hint)
    rest.foldl (fun acc x => addTag acc (mentionTag x)) b

/-- The p-tag stage of `publish_note` (services.py lines 408-410). -/
def pStage (acc : List (List String)) (pIds : List String) : List (List String) :=
  pIds.foldl (fun acc p => addTag acc ["p", p]) acc

/-- The a-tag stage of `publish_note` (services.py lines 412-415): the
container reference is stripped and appended verbatim when truthy. -/
def aStage (acc : List (List String)) (aTag : Option String) : List (List String) :=
  match aTag with
  | some s =>
    if s ≠ "" then
      if pyStrip s ≠ "" then addTag acc ["a", pyStrip s] else acc
    else acc
  | none => acc

/-- Embeds the tag composition of `publish_note` (services.py lines
331-423): explicit tags first, then NIP-10 e-tags derived from the
accumulated reply ids, then validated p-tags, then the optional a-tag,
all deduplicated by `_add_tag`. -/
def composeTags (tags : List (List String)) (eTags pTags : List String)
    (replyEvent aTag replyRelay : Option String) : List (List String) :=
  aStage
    (pStage
      (eStage (tags.foldl addTag []) (normalizedEIds eTags replyEvent)
        ((normalizeRelayHint replyRelay).getD ""))
      (validatedPIds pTags))
    aTag

/-- The tag shape that selects kind 1311 in `publish_note`: an `a` tag of
length at least two whose value starts with `30311:`. -/
def is30311Tag (t : List String) : Bool :=
  match t with
  | a :: b :: _ => a = "a" && pyStartsWith b "30311:"
  | _ => false

/-- Embeds the kind selection of `publish_note` (services.py lines
425-430): kind 1311 when some composed tag is an `a` tag whose value
starts with `30311:`, kind 1 otherwise. -/
def kindOf (formattedTags : List (List String)) : Nat :=
  if formattedTags.any is30311Tag then 1311 else 1

/-- Observable outcome of one `publish_note` call: the returned boolean,
whether the signer/relay path was entered at all, and the kind and tags
handed to the signer when it was. -/
structure PublishOutcome where
  result : Bool
  signerInvoked : Bool
  signedKind : Option Nat
  signedTags : Option (List (List String))
  deriving DecidableEq, Repr

/-- Embeds `publish_note` (services.py lines 310-442).  `setting` and
`avail` feed `is_nostr_publishing_enabled`; `bunkerOk` is the outcome of
`_try_bunker_sign_and_publish` when it is reached.  When publishing is
disabled the function returns `True` before composing tags or touching the
signer. -/
def publishNote (setting : Option String) (avail bunkerOk : Bool)
    (tags : List (List String)) (eTags pTags : List String)
    (replyEvent aTag replyRelay : Option String) : PublishOutcome :=
  if isNostrPublishingEnabled setting avail = false then
    { result := true, signerInvoked := false, signedKind := none, signedTags := none }
  else
    let ft := composeTags tags eTags pTags replyEvent aTag replyRelay
    { result := bunkerOk, signerInvoked := true,
      signedKind := some (kindOf ft), signedTags := some ft }

/-- Bool predicate selecting the event-reference tags of a composed list. -/
def isETag (t : List String) : Bool := t.head? == some "e"

/-- Bool predicate selecting the pubkey-reference tags of a composed list. -/
def isPTag (t : List String) : Bool := t.head? == some "p"

/-- Left fold that keeps the first occurrence of each element, preserving
order (the deduplication view of `_add_tag` restricted to one tag kind). -/
def dedupKeepFirst (l : List (List String)) : List (List String) :=
  l.foldl (fun d x => if x ∈ d then d else d ++ [x]) []

/-! ## Reference codec (message_builder.py lines 47-74) -/

/-- Value of a hex digit character, `none` for non-hex characters. -/
def hexVal (c : Char) : Option Nat :=
  if '0' ≤ c && c ≤ '9' then some (c.toNat - 48)
  else if 'a' ≤ c && c ≤ 'f' then some (c.toNat - 87)
  else if 'A' ≤ c && c ≤ 'F' then some (c.toNat - 55)
  else none

/-- Models Python `bytes.fromhex` on a character list: ASCII whitespace is
skipped between byte pairs, each byte is exactly two adjacent hex digits,
and anything else (including whitespace inside a pair or an odd trailing
digit) raises (`none`). -/
def bytesFromHexChars : List Char → Option (List Nat)
  | [] => some []
  | c :: rest =>
    if pyIsSpace c then bytesFromHexChars rest
    else
      match hexVal c with
      | none => none
      | some h1 =>
        match rest with
        | [] => none
        | c2 :: rest2 =>
          match hexVal c2 with
          | none => none
          | some h2 => (bytesFromHexChars rest2).map (fun bs => (16 * h1 + h2) :: bs)

/-- Models Python `bytes.fromhex`. -/
def bytesFromHex (s : String) : Option (List Nat) := bytesFromHexChars s.data

/-- Models the bech32 package's `convertbits(data, 8, 5, True)` (the only
way the repository calls it): regroups a byte list into 5-bit groups,
most significant bits first, padding the final group with zero bits;
fails (`none`, the reference implementation returns None) when an input
value does not fit in 8 bits. -/
def convertbits85 : List Nat → Nat → Nat → Option (List Nat)
  | [], acc, bits =>
    if bits = 0 then some [] else some [(acc <<< (5 - bits)) &&& 31]
  | v :: rest, acc, bits =>
    if v ≥ 256 then none
    else
      let acc2 := ((acc <<< 8) ||| v) &&& 0xfff
      let bits2 := bits + 8
      if bits2 ≥ 10 then
        match convertbits85 rest acc2 (bits2 - 10) with
        | some out => some (((acc2 >>> (bits2 - 5)) &&& 31) :: ((acc2 >>> (bits2 - 10)) &&& 31) :: out)
        | none => none
      else
        match convertbits85 rest acc2 (bits2 - 5) with
        | some out => some (((acc2 >>> (bits2 - 5)) &&& 31) :: out)
        | none => none

/-- The bech32 data character set. -/
def bech32Charset : List Char := "qpzry9x8gf2tvdw0s3jn54khce6mua7l".data

/-- The bech32 checksum generator constants. -/
def bech32Gen : List Nat := [0x3b6a57b2, 0x26508e6d, 0x1ea119fa, 0x3d4233dd, 0x2a1462b3]

/-- The bech32 polymod checksum accumulator. -/
def bech32Polymod (values : List Nat) : Nat :=
  values.foldl (fun chk value =>
    let top := chk >>> 25
    let chk2 := (((chk &&& 0x1ffffff) <<< 5) ^^^ value)
    (List.range 5).foldl (fun c i =>
      if (top >>> i) &&& 1 = 1 then c ^^^ bech32Gen.getD i 0 else c) chk2) 1

/-- The bech32 human-readable-part expansion. -/
def bech32HrpExpand (hrp : String) : List Nat :=
  hrp.data.map (fun c => c.toNat >>> 5) ++ [0] ++ hrp.data.map (fun c => c.toNat &&& 31)

/-- The bech32 checksum of a payload. -/
def bech32CreateChecksum (hrp : String) (data : List Nat) : List Nat :=
  let values := bech32HrpExpand hrp ++ data
  let pm := bech32Polymod (values ++ [0, 0, 0, 0, 0, 0]) ^^^ 1
  (List.range 6).map (fun i => (pm >>> (5 * (5 - i))) &&& 31)

/-- Models the bech32 package's `bech32_encode`. -/
def bech32Encode (hrp : String) (data : List Nat) : String :=
  hrp ++ "1" ++ ⟨(data ++ bech32CreateChecksum hrp data).map (fun d => bech32Charset.getD d ' ')⟩

/-- Embeds `format_nostr_event_reference` (message_builder.py lines
47-61): trims and lowercases, requires length 64, decodes hex via
`bytes.fromhex`, regroups to 5-bit words and bech32-encodes with hrp
`note`; every failure returns `none`. -/
def formatNostrEventReference (eventId : Option String) : Option String :=
  match eventId with
  | none => none
  | some e =>
    if e = "" then none
    else
      let candidate := pyLower (pyStrip e)
      if candidate.length ≠ 64 then none
      else
        match bytesFromHex candidate with
        | none => none
        | some raw =>
          match convertbits85 raw 0 0 with
          | none => none
          | some data => if data = [] then none else some (bech32Encode "note" data)

/-- Models the external `lnbits.utils.nostr.hex_to_npub` primitive by the
canonical hex-to-bech32 npub encoding (bytes.fromhex, 8-to-5 bit
regrouping, bech32 with hrp `npub`); a failure raises, which
`format_nostr_pubkey` catches and maps to `none`. -/
def hexToNpub (hexPubkey : String) : Option String :=
  match bytesFromHex hexPubkey with
  | none => none
  | some raw =>
    match convertbits85 raw 0 0 with
    | none => none
    | some data => some (bech32Encode "npub" data)

/-- Embeds `format_nostr_pubkey` (message_builder.py lines 64-74): trims
and lowercases, requires length 64, then converts via `hex_to_npub` with
any exception mapped to `none`. -/
def formatNostrPubkey (pubkey : Option String) : Option String :=
  match pubkey with
  | none => none
  | some p =>
    if p = "" then none
    else
      let candidate := pyLower (pyStrip p)
      if candidate.length ≠ 64 then none
      else hexToNpub candidate

/-! ## Python str.format machinery (string.Formatter, services.py lines 25-45)

The `_SafeFormatter` subclass only overrides `get_field`; the parse loop,
auto-numbering, conversion and format-spec handling below embed the stdlib
`string.Formatter._vformat` and the C `formatter_parser`, restricted to
ASCII identifiers and string-valued flat contexts (the only shapes the
repository feeds it).  Errors raised anywhere are `none`. -/

/-- One replacement field of a format string: name, conversion, spec. -/
structure FormatField where
  name : String
  conv : Option Char
  spec : String
  deriving DecidableEq, Repr

/-- One parsed chunk of a format string: literal text then an optional
replacement field, as yielded by `formatter_parser`. -/
structure FormatItem where
  literal : String
  field : Option FormatField
  deriving DecidableEq, Repr

/-- ASCII letter test on a code point. -/
def isAsciiAlphaNat (n : Nat) : Bool := (65 ≤ n && n ≤ 90) || (97 ≤ n && n ≤ 122)

/-- ASCII digit test on a code point. -/
def isAsciiDigitNat (n : Nat) : Bool := 48 ≤ n && n ≤ 57

/-- First character of a Python identifier (ASCII subset). -/
def identStartChar (c : Char) : Bool := isAsciiAlphaNat c.toNat || c = '_'

/-- Later character of a Python identifier (ASCII subset). -/
def identContChar (c : Char) : Bool :=
  isAsciiAlphaNat c.toNat || isAsciiDigitNat c.toNat || c = '_'

/-- Models Python `str.isidentifier` (ASCII subset). -/
def isPyIdentifier (s : String) : Bool :=
  match s.data with
  | [] => false
  | c :: rest => identStartChar c && rest.all identContChar

/-- Models Python `str.isdigit` (ASCII subset). -/
def isPyDigits (s : String) : Bool :=
  !s.data.isEmpty && s.data.all (fun c => isAsciiDigitNat c.toNat)

/-- Scan a replacement-field name: terminated by `}`/`:`/`!`; a `{` is an
error; `[...]` ranges are skipped so their contents never terminate the
name (mirroring `parse_field` in the C implementation). -/
def fieldNameScan : Nat → List Char → List Char → Option (List Char × Char × List Char)
  | 0, _, _ => none
  | _ + 1, [], _ => none
  | fuel + 1, c :: rest, acc =>
    if c = '\x7b' then none
    else if c = '[' then
      match rest.dropWhile (fun d => d ≠ ']') with
      | [] => none
      | _ :: restAfter =>
        fieldNameScan fuel restAfter (acc ++ [c] ++ rest.takeWhile (fun d => d ≠ ']') ++ [']'])
    else if c = '\x7d' || c = ':' || c = '!' then some (acc, c, rest)
    else fieldNameScan fuel rest (acc ++ [c])

/-- Scan a format spec up to the matching close brace, tracking nested
brace depth. -/
def specScan : Nat → List Char → Nat → List Char → Option (List Char × List Char)
  | 0, _, _, _ => none
  | _ + 1, [], _, _ => none
  | fuel + 1, c :: rest, depth, acc =>
    if c = '\x7b' then specScan fuel rest (depth + 1) (acc ++ [c])
    else if c = '\x7d' then
      if depth = 1 then some (acc, rest) else specScan fuel rest (depth - 1) (acc ++ [c])
    else specScan fuel rest depth (acc ++ [c])

/-- Parse one replacement field (after its opening brace): name, optional
`!conversion`, optional `:spec`, and the input after the closing brace. -/
def parseField (fuel : Nat) (cs : List Char) : Option (FormatField × List Char) :=
  match fieldNameScan fuel cs [] with
  | none => none
  | some (nameChars, term, rest) =>
    if term = '!' then
      match rest with
      | [] => none
      | conv :: rest2 =>
        match rest2 with
        | [] => none
        | c2 :: rest3 =>
          if c2 = ':' then
            (specScan fuel rest3 1 []).map (fun p => (⟨⟨nameChars⟩, some conv, ⟨p.1⟩⟩, p.2))
          else if c2 = '\x7d' then some (⟨⟨nameChars⟩, some conv, ""⟩, rest3)
          else none
    else if term = ':' then
      (specScan fuel rest 1 []).map (fun p => (⟨⟨nameChars⟩, none, ⟨p.1⟩⟩, p.2))
    else some (⟨⟨nameChars⟩, none, ""⟩, rest)

/-- Models the C `formatter_parser`: splits a format string into literal
chunks and replacement fields; doubled braces become literal braces;
single stray braces are errors. -/
def parseFormat : Nat → List Char → Option (List FormatItem)
  | 0, _ => none
  | fuel + 1, cs =>
    if cs.isEmpty then some []
    else
      let lit := cs.takeWhile (fun c => !(c = '\x7b' || c = '\x7d'))
      match cs.dropWhile (fun c => !(c = '\x7b' || c = '\x7d')) with
      | [] => some [⟨⟨lit⟩, none⟩]
      | b :: rest2 =>
        if b = '\x7d' then
          match rest2 with
          | [] => none
          | b2 :: rest3 =>
            if b2 = '\x7d' then
              (parseFormat fuel rest3).map (fun items => ⟨⟨lit ++ ['\x7d']⟩, none⟩ :: items)
            else none
        else
          match rest2 with
          | [] => none
          | b2 :: rest3 =>
            if b2 = '\x7b' then
              (parseFormat fuel rest3).map (fun items => ⟨⟨lit ++ ['\x7b']⟩, none⟩ :: items)
            else
              match parseField fuel rest2 with
              | none => none
              | some (fld, rest4) =>
                (parseFormat fuel rest4).map (fun items => ⟨⟨lit⟩, some fld⟩ :: items)

/-- Parse a whole format string (fuel bounded by its length). -/
def parseFormatTop (s : String) : Option (List FormatItem) :=
  parseFormat (s.data.length + 1) s.data

/-- Decimal digit list of a natural number (models `str(int)`). -/
def natToStrAux : Nat → Nat → List Char
  | 0, _ => []
  | fuel + 1, n =>
    if n < 10 then [Char.ofNat (48 + n)]
    else natToStrAux fuel (n / 10) ++ [Char.ofNat (48 + n % 10)]

/-- Models `str(int)` on naturals. -/
def natToStr (n : Nat) : String := ⟨natToStrAux (n + 1) n⟩

/-- Models the auto-numbering bookkeeping of `Formatter._vformat`: an
empty field name draws the next automatic index (error after manual
indexing), a digit name switches to manual indexing (error after
automatic); the auto counter state `none` models Python's `False`. -/
def autoHandle (name : String) (auto : Option Nat) : Option (String × Option Nat) :=
  if name = "" then
    match auto with
    | none => none
    | some n => some (natToStr n, some (n + 1))
  else if isPyDigits name then
    match auto with
    | some n => if n > 0 then none else some (name, none)
    | none => some (name, none)
  else some (name, auto)

/-- Models Python `repr`/`ascii` of a string value (quote choice and
escaping); only the shapes reachable from the repository's templates
matter, but the common escapes are covered. -/
def pyReprStr (s : String) (asciiOnly : Bool) : String :=
  let quote : Char :=
    if ('\x27' ∈ s.data) && !('\x22' ∈ s.data) then '\x22' else '\x27'
  let hexDigit : Nat → Char := fun n => if n < 10 then Char.ofNat (48 + n) else Char.ofNat (87 + n)
  let escape : Char → List Char := fun c =>
    if c = '\\' then ['\\', '\\']
    else if c = quote then ['\\', quote]
    else if c = '\n' then ['\\', 'n']
    else if c = '\r' then ['\\', 'r']
    else if c = '\t' then ['\\', 't']
    else if c.toNat < 32 || c.toNat = 127 then
      ['\\', 'x', hexDigit (c.toNat / 16), hexDigit (c.toNat % 16)]
    else if asciiOnly && c.toNat > 126 then
      ['\\', 'u'] ++ (natToStrAux 5 (c.toNat / 4096) ++ [hexDigit ((c.toNat / 256) % 16),
        hexDigit ((c.toNat / 16) % 16), hexDigit (c.toNat % 16)])
    else [c]
  ⟨[quote] ++ s.data.flatMap escape ++ [quote]⟩

/-- Models `Formatter.convert_field`: no conversion, `s`, `r`, `a` are
accepted (values here are strings, so `s` is the identity); any other
conversion character raises. -/
def convertField (conv : Option Char) (v : String) : Option String :=
  match conv with
  | none => some v
  | some c =>
    if c = 's' then some v
    else if c = 'r' then some (pyReprStr v false)
    else if c = 'a' then some (pyReprStr v true)
    else none

/-- Numeric value of a digit character list. -/
def natOfDigits (cs : List Char) : Nat :=
  cs.foldl (fun acc c => acc * 10 + (c.toNat - 48)) 0

/-- The format-spec alignment characters. -/
def alignChars : List Char := ['<', '>', '^', '=']

/-- Models `str.__format__` for string values: optional fill and
alignment, `0` flag, width, precision (truncation) and the `s` type;
sign, `#`, grouping and `=` alignment raise for strings. -/
def formatStrSpec (v : String) (spec : String) : Option String :=
  if spec = "" then some v
  else
    let cs := spec.data
    let fillAlign : Option Char × Option Char × List Char :=
      match cs with
      | a :: b :: r =>
        if b ∈ alignChars then (some a, some b, r)
        else if a ∈ alignChars then (none, some a, b :: r)
        else (none, none, cs)
      | [a] => if a ∈ alignChars then (none, some a, []) else (none, none, cs)
      | [] => (none, none, [])
    match fillAlign with
    | (fillOpt, alignOpt, rest0) =>
      if alignOpt = some '=' then none
      else if (match rest0 with | c :: _ => c == '+' || c == '-' || c == ' ' | [] => false) then none
      else if (match rest0 with | c :: _ => c == '#' | [] => false) then none
      else
        let zero : Bool := match rest0 with
          | '0' :: _ => true
          | _ => false
        let rest1 := if zero then rest0.tail else rest0
        let widthChars := rest1.takeWhile (fun c => isAsciiDigitNat c.toNat)
        let rest2 := rest1.dropWhile (fun c => isAsciiDigitNat c.toNat)
        if (match rest2 with | c :: _ => c == ',' || c == '_' | [] => false) then none
        else
          let precAndRest : Option (Option Nat × List Char) :=
            match rest2 with
            | '.' :: r =>
              if (r.takeWhile (fun c => isAsciiDigitNat c.toNat)).isEmpty then none
              else some (some (natOfDigits (r.takeWhile (fun c => isAsciiDigitNat c.toNat))),
                r.dropWhile (fun c => isAsciiDigitNat c.toNat))
            | _ => some (none, rest2)
          match precAndRest with
          | none => none
          | some (prec, rest3) =>
            if rest3 = [] || rest3 = ['s'] then
              let fill := fillOpt.getD (if zero then '0' else ' ')
              let align := alignOpt.getD '<'
              let truncated := match prec with
                | some p => v.data.take p
                | none => v.data
              let width := natOfDigits widthChars
              if truncated.length ≥ width then some ⟨truncated⟩
              else
                let pad := width - truncated.length
                if align = '>' then some ⟨List.replicate pad fill ++ truncated⟩
                else if align = '^' then
                  some ⟨List.replicate (pad / 2) fill ++ truncated
                    ++ List.replicate (pad - pad / 2) fill⟩
                else some ⟨truncated ++ List.replicate pad fill⟩
            else none

/-- The chunk loop of `Formatter._vformat`: literal text is emitted as is;
each field goes through auto-numbering, `get_field` (the `resolve`
argument), `convert_field`, a recursive render of its spec (the
`renderSpec` argument), and `format_field`. -/
def runItemsWith (resolve : String → Option String)
    (renderSpec : String → Option Nat → Option (String × Option Nat)) :
    List FormatItem → Option Nat → Option (String × Option Nat)
  | [], auto => some ("", auto)
  | item :: items, auto =>
    match item.field with
    | none =>
      (runItemsWith resolve renderSpec items auto).map
        (fun r => (item.literal ++ r.1, r.2))
    | some fld =>
      (autoHandle fld.name auto).bind fun na =>
        (resolve na.1).bind fun v =>
          (convertField fld.conv v).bind fun v2 =>
            (renderSpec fld.spec na.2).bind fun sr =>
              (formatStrSpec v2 sr.1).bind fun piece =>
                (runItemsWith resolve renderSpec items sr.2).map
                  (fun r => (item.literal ++ piece ++ r.1, r.2))

/-- Models `Formatter._vformat`: parse, then run the chunk list; the fuel
models the recursion-depth limit on nested format specs (the stdlib
starts at depth 2, so the top-level call uses fuel 3). -/
def vfmt (resolve : String → Option String) : Nat → String → Option Nat →
    Option (String × Option Nat)
  | 0, _, _ => none
  | fuel + 1, fs, auto =>
    match parseFormatTop fs with
    | none => none
    | some items => runItemsWith resolve (vfmt resolve fuel) items auto

/-- Embeds `_SafeFormatter.get_field` (services.py lines 33-42) for a flat
string-valued context: non-identifier field names raise; unresolved
identifiers are substituted by their own placeholder text. -/
def safeResolve (ctx : List (String × String)) (name : String) : Option String :=
  if isPyIdentifier name then
    match ctx.lookup name with
    | some v => some v
    | none => some ("\x7b" ++ name ++ "\x7d")
  else none

/-- Embeds `_safe_fmt.format(template, **values)`: the stdlib vformat
driven by `_SafeFormatter.get_field`; `none` is a raised render error. -/
def safeFormat (t : String) (ctx : List (String × String)) : Option String :=
  (vfmt (safeResolve ctx) 3 t (some 0)).map (fun p => p.1)

/-- Models the base `Formatter.get_field` on a flat string-valued context:
missing names raise `KeyError`; names that are not plain identifiers would
traverse attributes or items of primitive values, modelled as a raised
error. -/
def baseResolve (ctx : List (String × String)) (name : String) : Option String :=
  if isPyIdentifier name then ctx.lookup name else none

/-- Models plain `str.format(**kwargs)` on a flat string-valued context
(used by `_format_template` in message_builder.py, which catches every
exception). -/
def pyFormatFlat (t : String) (ctx : List (String × String)) : Option String :=
  (vfmt (baseResolve ctx) 3 t (some 0)).map (fun p => p.1)

/-- Expected output of rendering a parsed chunk list whose fields are all
bare identifiers through `_SafeFormatter`: literals kept, resolved names
substituted, unresolved names left intact as their own placeholder text. -/
def renderBare (ctx : List (String × String)) : List FormatItem → String
  | [] => ""
  | i :: items =>
    i.literal
      ++ (match i.field with
          | some fld => (ctx.lookup fld.name).getD ("\x7b" ++ fld.name ++ "\x7d")
          | none => "")
      ++ renderBare ctx items

/-! ## Message builder membership branch (message_builder.py lines 90-93 and 221-309) -/

/-- Substring membership, models Python `needle in hay`. -/
def listContainsSub (needle : List Char) : List Char → Bool
  | [] => charsStart [] needle
  | c :: rest => charsStart (c :: rest) needle || listContainsSub needle rest

/-- Models Python `needle in hay` on strings. -/
def pyContains (hay needle : String) : Bool := listContainsSub needle.data hay.data

/-- Models Python `str.replace(old, new)` on character lists (left to
right, non-overlapping); `old` is never empty at the call sites. -/
def replaceAllChars (old new : List Char) : Nat → List Char → List Char
  | 0, hay => hay
  | fuel + 1, hay =>
    match hay with
    | [] => []
    | c :: rest =>
      if charsStart (c :: rest) old then
        new ++ replaceAllChars old new fuel ((c :: rest).drop old.length)
      else c :: replaceAllChars old new fuel rest

/-- Models Python `str.replace(old, new)` (for non-empty `old`). -/
def pyReplace (s old new : String) : String :=
  if old = "" then s
  else ⟨replaceAllChars old.data new.data (s.data.length + 1) s.data⟩

/-- The fixed promotional trailer embedded in the default templates. -/
def promoTrailer : String := "\n\n https://lightning-goats.com\n\n"

/-- Embeds `_strip_promotional_link` (message_builder.py lines 90-93). -/
def stripPromotionalLink (content : String) (is30311Reply : Bool) : String :=
  if is30311Reply then pyReplace content promoTrailer "" else content

/-- One template pool entry: a plain string or a dict with `content` and
`reply_relay` (the two shapes in defaults.py and the template store). -/
inductive TmplEntry where
  | plain (s : String)
  | withRelay (content relay : String)
  deriving DecidableEq, Repr

/-- Models `_safe_template_content`: a dict entry yields its `content`,
a plain entry is used as is. -/
def entryContent : TmplEntry → String
  | .plain s => s
  | .withRelay c _ => c

/-- A template pool: key-to-entry pairs in insertion order. -/
def TmplPool : Type := List (String × TmplEntry)

/-- The values view of a pool (`list(pool.values())`). -/
def poolValues (pool : TmplPool) : List TmplEntry := pool.map (fun p => p.2)

/-- The `CYBER_HERD_JOIN` default pool (defaults.py lines 7-16). -/
def CYBER_HERD_JOIN : TmplPool :=
  [("0", .withRelay
      "\x7bname\x7d has joined the ⚡ CyberHerd ⚡. \x7bthanks_part\x7d The feeder will activate in \x7bdifference\x7d sats.\n\n https://lightning-goats.com\n\n"
      "https://relay.damus.io"),
   ("1", .withRelay
      "Welcome, \x7bname\x7d. \x7bthanks_part\x7d The ⚡ CyberHerd ⚡ grows. \x7bdifference\x7d sats are required for the next feeding cycle.\n\n https://lightning-goats.com\n\n"
      "https://nostr-pub.wellorder.net")]

/-- The `THANK_YOU_VARIATIONS` default pool (defaults.py lines 18-21). -/
def THANK_YOU_VARIATIONS : TmplPool :=
  [("0", .withRelay "Thank you for the contribution of \x7bnew_amount\x7d sats."
      "https://relay.snort.social"),
   ("1", .withRelay
      "Your \x7bnew_amount\x7d sat contribution has been received and supports the herd."
      "https://relay.snort.social")]

/-- The `HEADBUTT_INFO` default pool (defaults.py lines 81-83). -/
def HEADBUTT_INFO : TmplPool :=
  [("0", .plain
      "⚡headbutt⚡: The ⚡ CyberHerd ⚡ is currently at full capacity. To join, a contribution of \x7brequired_sats\x7d sats is needed to displace the member with the lowest contribution, \x7bvictim_name\x7d.\n\n https://lightning-goats.com\n\n")]

/-- Pool lookup that mirrors the truthiness test
`if key in template_overrides and template_overrides[key]`. -/
def lookupPoolTruthy (ov : List (String × TmplPool)) (key : String) : Option TmplPool :=
  match ov.lookup key with
  | some p => if p.isEmpty then none else some p
  | none => none

/-- Embeds the `_pool` helper of `build_message` (message_builder.py lines
240-261): tries the candidate key variants against the overrides before
falling back to the built-in default pool. -/
def poolLookup (ov : List (String × TmplPool)) (name : String) (dflt : TmplPool) : TmplPool :=
  if ov.isEmpty then dflt
  else
    match lookupPoolTruthy ov name with
    | some p => p
    | none =>
      match lookupPoolTruthy ov (pyLower name) with
      | some p => p
      | none =>
        match lookupPoolTruthy ov (pyLower name ++ "_dict") with
        | some p => p
        | none =>
          match lookupPoolTruthy ov (pyReplace (pyLower name) "_dict" "") with
          | some p => p
          | none => dflt

/-- Embeds `_format_template`: render the entry content with plain
`str.format`, returning the raw content when formatting raises. -/
def formatTemplate (t : TmplEntry) (ctx : List (String × String)) : String :=
  (pyFormatFlat (entryContent t) ctx).getD (entryContent t)

/-- Embeds `_normalize_nprofile` (message_builder.py lines 84-87). -/
def normalizeNprofile (value : Option String) : Option String :=
  match value with
  | some v => if v ≠ "" && !pyStartsWith v "nostr:" then some ("nostr:" ++ v) else some v
  | none => none

/-- Python `or` chain over optional strings with a final default (empty
strings are falsy). -/
def pyOrStr (xs : List (Option String)) (dflt : String) : String :=
  match xs with
  | [] => dflt
  | x :: rest =>
    match x with
    | some s => if s ≠ "" then s else pyOrStr rest dflt
    | none => pyOrStr rest dflt

/-- The displacement-candidate record inside a membership item. -/
structure HeadbuttInfo where
  required_sats : Option Int
  victim_name : Option String
  deriving DecidableEq, Repr

/-- The fields of the loosely-typed `cyber_herd_item` record read by the
membership branch of `build_message` (absent keys are `none`). -/
structure ChItem where
  display_name : Option String := none
  event_id : Option String := none
  pubkey : Option String := none
  nprofile : Option String := none
  amount : Option Int := none
  headbutt_info : Option HeadbuttInfo := none
  deriving DecidableEq, Repr

/-- Embeds the `MessageBundle` dataclass (message_builder.py lines 35-44);
the unused goat fields of this branch are kept for shape fidelity. -/
structure MessageBundle where
  nostr_content : String
  websocket_content : String
  spots_info : String := ""
  goat_data : Option (List (String × String)) := none
  spots_remaining : Int := 0
  headbutt_text : String := ""
  deriving DecidableEq, Repr

/-- Embeds `_format_thanks` (message_builder.py lines 96-115); `iThanks`
is the random-draw oracle. -/
def formatThanks (amount : Int) (ov : List (String × TmplPool)) (iThanks : Nat) :
    Option String :=
  if amount = 0 then some ""
  else
    let pool :=
      if !ov.isEmpty then
        match lookupPoolTruthy ov "thank_you_variations" with
        | some p => p
        | none =>
          match lookupPoolTruthy ov "thank_you_variation" with
          | some p => p
          | none => THANK_YOU_VARIATIONS
      else THANK_YOU_VARIATIONS
    (pickTemplate (poolValues pool) iThanks).map fun t =>
      let text := entryContent t
      if text = "" then ""
      else (pyFormatFlat text [("new_amount", toString amount)]).getD text

/-- Embeds `_build_spots_and_headbutt_info` (message_builder.py lines
187-218); `iHead` is the random-draw oracle for the displacement notice. -/
def buildSpotsAndHeadbutt (spots : Int) (item : ChItem)
    (ov : List (String × TmplPool)) (iHead : Nat) : Option (String × String) :=
  let spotsInfo :=
    if spots > 1 then "⚡ " ++ toString spots ++ " more spots available. ⚡"
    else if spots = 1 then "⚡ 1 more spot available. ⚡"
    else ""
  if spots = 0 then
    match item.headbutt_info with
    | some info =>
      (pickTemplate (poolValues (poolLookup ov "headbutt_info" HEADBUTT_INFO)) iHead).map
        fun tpl =>
          (spotsInfo, " " ++ formatTemplate tpl
            [("required_sats", toString (info.required_sats.getD 10)),
             ("victim_name", info.victim_name.getD "Anon")])
    | none => some (spotsInfo, "")
  else some (spotsInfo, "")

/-- Embeds the `cyber_herd`/`new_member` branch of `build_message`
(message_builder.py lines 263-309): template selection, thanks fragment,
reference resolution, capacity and displacement fragments, and the
promotional-trailer strip on the protocol channel only.  `iMain`,
`iThanks` and `iHead` are the random-draw oracles. -/
def buildMessageCyberHerd (ov : List (String × TmplPool)) (item : ChItem)
    (spots difference : Int) (replyEvent aTag : Option String)
    (iMain iThanks iHead : Nat) : Option MessageBundle :=
  let is30311 := truthyOpt replyEvent && truthyOpt aTag
  (pickTemplate (poolValues (poolLookup ov "cyber_herd_join" CYBER_HERD_JOIN)) iMain).bind
    fun template =>
  let displayName := item.display_name.getD "anon"
  let eventId := item.event_id.getD ""
  let pubKey := item.pubkey.getD ""
  let nprofile := normalizeNprofile item.nprofile
  let amount := item.amount.getD 0
  (formatThanks amount ov iThanks).bind fun thankYou =>
  let nostrName := pyOrStr
    [formatNostrPubkey (some pubKey), nprofile, formatNostrEventReference (some eventId)]
    displayName
  (buildSpotsAndHeadbutt spots item ov iHead).bind fun sh =>
  let nostrBody := formatTemplate template
    [("thanks_part", thankYou), ("name", nostrName), ("difference", toString difference),
     ("new_amount", toString amount), ("event_id", eventId)]
  let websocketBody := formatTemplate template
    [("thanks_part", thankYou), ("name", displayName), ("difference", toString difference),
     ("new_amount", toString amount), ("event_id", eventId)]
  some
    { nostr_content := stripPromotionalLink (nostrBody ++ sh.1 ++ sh.2) is30311,
      websocket_content := websocketBody ++ sh.1 ++ sh.2,
      spots_info := sh.1,
      goat_data := none,
      spots_remaining := spots,
      headbutt_text := sh.2 }

/-! ## Template body unwrapping (services.py lines 653-754)

`_extract_content_and_reply` tries, in order: `json.loads`, then
`ast.literal_eval`, then a single-to-double-quote `json.loads` repair, then
two regex extractions, and finally discards wrapper-looking text.  The
Python value universe reachable from those parsers is embedded as
`PValue`; the parsers model the stdlib ones on the shapes a template body
can take (ASCII-oriented; lone surrogates, `\N{...}` names, string-prefix
literals and implicit string concatenation are modelled as parse errors,
and `str()` of a float keeps its source lexeme). -/

/-- Python values produced by `json.loads` / `ast.literal_eval`. -/
inductive PValue where
  | pnull
  | pbool (b : Bool)
  | pint (n : Int)
  | pfloat (raw : String)
  | pstr (s : String)
  | plist (xs : List PValue)
  | ptuple (xs : List PValue)
  | pset (xs : List PValue)
  | pdict (kvs : List (PValue × PValue))

/-- Zero test on a float lexeme (mantissa has digits, all zero). -/
def pfloatIsZero (raw : String) : Bool :=
  let mantissa := raw.data.takeWhile (fun c => !(c = 'e' || c = 'E'))
  mantissa.any (fun c => isAsciiDigitNat c.toNat)
    && mantissa.all (fun c => !(isAsciiDigitNat c.toNat) || c = '0')

/-- Python truthiness of a `PValue`. -/
def pyTruthy : PValue → Bool
  | .pnull => false
  | .pbool b => b
  | .pint n => n ≠ 0
  | .pfloat raw => !pfloatIsZero raw
  | .pstr s => s ≠ ""
  | .plist xs => !xs.isEmpty
  | .ptuple xs => !xs.isEmpty
  | .pset xs => !xs.isEmpty
  | .pdict kvs => !kvs.isEmpty

/-- Chooses the repr rendering of a value given its str rendering (only
strings differ: repr quotes them). -/
def pyReprOf (v : PValue) (rendered : String) : String :=
  match v with
  | .pstr s => pyReprStr s false
  | _ => rendered

mutual

/-- Models Python `str()` of a parsed value (containers render as their
repr; float lexemes are kept as parsed). -/
def pyStrVal : PValue → String
  | .pnull => "None"
  | .pbool b => if b then "True" else "False"
  | .pint n => toString n
  | .pfloat raw => raw
  | .pstr s => s
  | .plist xs => "[" ++ pyStrItems xs ++ "]"
  | .ptuple [x] => "(" ++ pyReprOf x (pyStrVal x) ++ ",)"
  | .ptuple xs => "(" ++ pyStrItems xs ++ ")"
  | .pset xs => if xs.isEmpty then "set()" else "\x7b" ++ pyStrItems xs ++ "\x7d"
  | .pdict kvs => "\x7b" ++ pyStrKvs kvs ++ "\x7d"

/-- Comma-joined reprs of container items. -/
def pyStrItems : List PValue → String
  | [] => ""
  | [x] => pyReprOf x (pyStrVal x)
  | x :: xs => pyReprOf x (pyStrVal x) ++ ", " ++ pyStrItems xs

/-- Comma-joined reprs of dict entries. -/
def pyStrKvs : List (PValue × PValue) → String
  | [] => ""
  | [(k, v)] => pyReprOf k (pyStrVal k) ++ ": " ++ pyReprOf v (pyStrVal v)
  | (k, v) :: rest =>
    pyReprOf k (pyStrVal k) ++ ": " ++ pyReprOf v (pyStrVal v) ++ ", " ++ pyStrKvs rest

end

/-- String-keyed dict lookup with Python overwrite semantics (the last
binding of a duplicated key wins). -/
def pdictGetStr (kvs : List (PValue × PValue)) (key : String) : Option PValue :=
  match kvs with
  | [] => none
  | (k, v) :: rest =>
    match pdictGetStr rest key with
    | some r => some r
    | none =>
      match k with
      | .pstr s => if s = key then some v else none
      | _ => none

/-! ### JSON parser (models `json.loads` with its default settings) -/

/-- JSON whitespace. -/
def jsonWsChar (c : Char) : Bool := c = ' ' || c = '\t' || c = '\n' || c = '\r'

/-- Drop JSON whitespace. -/
def skipJsonWs (cs : List Char) : List Char := cs.dropWhile jsonWsChar

/-- Parse exactly four hex digits. -/
def hex4 (cs : List Char) : Option (Nat × List Char) :=
  match cs with
  | a :: b :: c :: d :: rest =>
    match hexVal a, hexVal b, hexVal c, hexVal d with
    | some x, some y, some z, some w => some (4096 * x + 256 * y + 16 * z + w, rest)
    | _, _, _, _ => none
  | _ => none

/-- Body of a JSON string after the opening quote: strict mode (raw
control characters are errors), standard escapes, surrogate pairs
combined; a lone surrogate is modelled as an error. -/
def jsonStringBody : Nat → List Char → List Char → Option (String × List Char)
  | 0, _, _ => none
  | _ + 1, [], _ => none
  | fuel + 1, c :: rest, acc =>
    if c = '\x22' then some (⟨acc⟩, rest)
    else if c = '\\' then
      match rest with
      | [] => none
      | e :: rest2 =>
        if e = '\x22' then jsonStringBody fuel rest2 (acc ++ ['\x22'])
        else if e = '\\' then jsonStringBody fuel rest2 (acc ++ ['\\'])
        else if e = '/' then jsonStringBody fuel rest2 (acc ++ ['/'])
        else if e = 'b' then jsonStringBody fuel rest2 (acc ++ ['\x08'])
        else if e = 'f' then jsonStringBody fuel rest2 (acc ++ ['\x0c'])
        else if e = 'n' then jsonStringBody fuel rest2 (acc ++ ['\n'])
        else if e = 'r' then jsonStringBody fuel rest2 (acc ++ ['\r'])
        else if e = 't' then jsonStringBody fuel rest2 (acc ++ ['\t'])
        else if e = 'u' then
          match hex4 rest2 with
          | none => none
          | some (n, rest3) =>
            if 0xd800 ≤ n && n ≤ 0xdbff then
              match rest3 with
              | '\\' :: 'u' :: rest4 =>
                match hex4 rest4 with
                | none => none
                | some (m, rest5) =>
                  if 0xdc00 ≤ m && m ≤ 0xdfff then
                    jsonStringBody fuel rest5
                      (acc ++ [Char.ofNat (0x10000 + (n - 0xd800) * 0x400 + (m - 0xdc00))])
                  else none
              | _ => none
            else if 0xdc00 ≤ n && n ≤ 0xdfff then none
            else jsonStringBody fuel rest3 (acc ++ [Char.ofNat n])
        else none
    else if c.toNat < 32 then none
    else jsonStringBody fuel rest (acc ++ [c])

/-- Parse a JSON number per the scanner regex
`(-?(?:0|[1-9]\d*))(\.\d+)?([eE][-+]?\d+)?`. -/
def jsonNumber (cs : List Char) : Option (PValue × List Char) :=
  let (sign, cs1) : Bool × List Char :=
    match cs with
    | '-' :: rest => (true, rest)
    | _ => (false, cs)
  let intPart : Option (List Char × List Char) :=
    match cs1 with
    | '0' :: rest => some (['0'], rest)
    | c :: _ =>
      if isAsciiDigitNat c.toNat then
        some (cs1.takeWhile (fun d => isAsciiDigitNat d.toNat),
          cs1.dropWhile (fun d => isAsciiDigitNat d.toNat))
      else none
    | [] => none
  match intPart with
  | none => none
  | some (ip, rest1) =>
    let fracPart : List Char × List Char :=
      match rest1 with
      | '.' :: r =>
        if (r.takeWhile (fun d => isAsciiDigitNat d.toNat)).isEmpty then ([], rest1)
        else ('.' :: r.takeWhile (fun d => isAsciiDigitNat d.toNat),
          r.dropWhile (fun d => isAsciiDigitNat d.toNat))
      | _ => ([], rest1)
    match fracPart with
    | (fp, rest2) =>
      let expPart : List Char × List Char :=
        match rest2 with
        | e :: r =>
          if e = 'e' || e = 'E' then
            match r with
            | s :: r2 =>
              if s = '+' || s = '-' then
                if (r2.takeWhile (fun d => isAsciiDigitNat d.toNat)).isEmpty then ([], rest2)
                else (e :: s :: r2.takeWhile (fun d => isAsciiDigitNat d.toNat),
                  r2.dropWhile (fun d => isAsciiDigitNat d.toNat))
              else if (r.takeWhile (fun d => isAsciiDigitNat d.toNat)).isEmpty then ([], rest2)
              else (e :: r.takeWhile (fun d => isAsciiDigitNat d.toNat),
                r.dropWhile (fun d => isAsciiDigitNat d.toNat))
            | [] => ([], rest2)
          else ([], rest2)
        | [] => ([], rest2)
      match expPart with
      | (ep, rest3) =>
        if fp.isEmpty && ep.isEmpty then
          let v : Int := Int.ofNat (natOfDigits ip)
          some (.pint (if sign then -v else v), rest3)
        else
          some (.pfloat ⟨(if sign then ['-'] else []) ++ ip ++ fp ++ ep⟩, rest3)

mutual

/-- Parse one JSON value (no leading whitespace). -/
def jsonValue : Nat → List Char → Option (PValue × List Char)
  | 0, _ => none
  | fuel + 1, cs =>
    match cs with
    | [] => none
    | c :: rest =>
      if c = '\x7b' then jsonObject fuel (skipJsonWs rest)
      else if c = '[' then
        match skipJsonWs rest with
        | ']' :: rest2 => some (.plist [], rest2)
        | cs2 => jsonArrayItems fuel cs2 []
      else if c = '\x22' then
        (jsonStringBody (rest.length + 1) rest []).map (fun p => (.pstr p.1, p.2))
      else if c = 't' then
        if charsStart rest "rue".data then some (.pbool true, rest.drop 3) else none
      else if c = 'f' then
        if charsStart rest "alse".data then some (.pbool false, rest.drop 4) else none
      else if c = 'n' then
        if charsStart rest "ull".data then some (.pnull, rest.drop 3) else none
      else if c = 'N' then
        if charsStart rest "aN".data then some (.pfloat "nan", rest.drop 2) else none
      else if c = 'I' then
        if charsStart rest "nfinity".data then some (.pfloat "inf", rest.drop 7) else none
      else if c = '-' then
        match rest with
        | 'I' :: rest2 =>
          if charsStart rest2 "nfinity".data then some (.pfloat "-inf", rest2.drop 7) else none
        | _ => jsonNumber cs
      else if isAsciiDigitNat c.toNat then jsonNumber cs
      else none

/-- Parse the members of a JSON object after its opening brace and
whitespace (the empty object is handled by the caller). -/
def jsonObject : Nat → List Char → Option (PValue × List Char)
  | 0, _ => none
  | fuel + 1, cs =>
    match cs with
    | '\x7d' :: rest => some (.pdict [], rest)
    | _ => jsonMembers fuel cs []

/-- Parse `"key": value` pairs separated by commas up to the closing
brace. -/
def jsonMembers : Nat → List Char → List (PValue × PValue) →
    Option (PValue × List Char)
  | 0, _, _ => none
  | fuel + 1, cs, acc =>
    match cs with
    | '\x22' :: rest =>
      match jsonStringBody (rest.length + 1) rest [] with
      | none => none
      | some (k, rest2) =>
        match skipJsonWs rest2 with
        | ':' :: rest4 =>
          match jsonValue fuel (skipJsonWs rest4) with
          | none => none
          | some (v, rest5) =>
            match skipJsonWs rest5 with
            | ',' :: rest7 => jsonMembers fuel (skipJsonWs rest7) (acc ++ [(.pstr k, v)])
            | '\x7d' :: rest7 => some (.pdict (acc ++ [(.pstr k, v)]), rest7)
            | _ => none
        | _ => none
    | _ => none

/-- Parse array items separated by commas up to the closing bracket. -/
def jsonArrayItems : Nat → List Char → List PValue → Option (PValue × List Char)
  | 0, _, _ => none
  | fuel + 1, cs, acc =>
    match jsonValue fuel cs with
    | none => none
    | some (v, rest) =>
      match skipJsonWs rest with
      | ',' :: rest3 => jsonArrayItems fuel (skipJsonWs rest3) (acc ++ [v])
      | ']' :: rest3 => some (.plist (acc ++ [v]), rest3)
      | _ => none

end

/-- Models `json.loads`: one value with surrounding whitespace, trailing
text is an error. -/
def jsonParse (s : String) : Option PValue :=
  match jsonValue (s.data.length + 1) (skipJsonWs s.data) with
  | some (v, rest) => if (skipJsonWs rest).isEmpty then some v else none
  | none => none

/-! ### Python literal parser (models `ast.literal_eval` on literal shapes) -/

/-- Python source whitespace skipped between literal tokens. -/
def skipLitWs (cs : List Char) : List Char := cs.dropWhile pyIsSpace

/-- Octal digit value. -/
def octVal (c : Char) : Option Nat :=
  if '0' ≤ c && c ≤ '7' then some (c.toNat - 48) else none

/-- Body of a Python string literal after its opening quote: standard
escapes, octal and hex escapes, line continuation; unknown escapes keep
the backslash; `\N` names, the matching quote inside, and end of input
are errors. -/
def litStringBody (q : Char) : Nat → List Char → List Char → Option (String × List Char)
  | 0, _, _ => none
  | _ + 1, [], _ => none
  | fuel + 1, c :: rest, acc =>
    if c = q then some (⟨acc⟩, rest)
    else if c = '\\' then
      match rest with
      | [] => none
      | e :: rest2 =>
        if e = '\n' then litStringBody q fuel rest2 acc
        else if e = '\\' then litStringBody q fuel rest2 (acc ++ ['\\'])
        else if e = '\x27' then litStringBody q fuel rest2 (acc ++ ['\x27'])
        else if e = '\x22' then litStringBody q fuel rest2 (acc ++ ['\x22'])
        else if e = 'a' then litStringBody q fuel rest2 (acc ++ ['\x07'])
        else if e = 'b' then litStringBody q fuel rest2 (acc ++ ['\x08'])
        else if e = 'f' then litStringBody q fuel rest2 (acc ++ ['\x0c'])
        else if e = 'n' then litStringBody q fuel rest2 (acc ++ ['\n'])
        else if e = 'r' then litStringBody q fuel rest2 (acc ++ ['\r'])
        else if e = 't' then litStringBody q fuel rest2 (acc ++ ['\t'])
        else if e = 'v' then litStringBody q fuel rest2 (acc ++ ['\x0b'])
        else if (octVal e).isSome then
          match rest2 with
          | d2 :: d3 :: rest3 =>
            match octVal d2, octVal d3 with
            | some v2, some v3 =>
              litStringBody q fuel rest3
                (acc ++ [Char.ofNat (((octVal e).getD 0) * 64 + v2 * 8 + v3)])
            | some v2, none =>
              litStringBody q fuel (d3 :: rest3) (acc ++ [Char.ofNat (((octVal e).getD 0) * 8 + v2)])
            | none, _ => litStringBody q fuel (d2 :: d3 :: rest3) (acc ++ [Char.ofNat ((octVal e).getD 0)])
          | [d2] =>
            match octVal d2 with
            | some v2 => litStringBody q fuel [] (acc ++ [Char.ofNat (((octVal e).getD 0) * 8 + v2)])
            | none => litStringBody q fuel [d2] (acc ++ [Char.ofNat ((octVal e).getD 0)])
          | [] => litStringBody q fuel [] (acc ++ [Char.ofNat ((octVal e).getD 0)])
        else if e = 'x' then
          match rest2 with
          | h1 :: h2 :: rest3 =>
            match hexVal h1, hexVal h2 with
            | some v1, some v2 => litStringBody q fuel rest3 (acc ++ [Char.ofNat (16 * v1 + v2)])
            | _, _ => none
          | _ => none
        else if e = 'u' then
          match hex4 rest2 with
          | some (n, rest3) =>
            if 0xd800 ≤ n && n ≤ 0xdfff then none
            else litStringBody q fuel rest3 (acc ++ [Char.ofNat n])
          | none => none
        else if e = 'U' then
          match hex4 rest2 with
          | some (hi, rest3) =>
            match hex4 rest3 with
            | some (lo, rest4) =>
              let n := hi * 65536 + lo
              if n ≤ 0x10ffff && !(0xd800 ≤ n && n ≤ 0xdfff) then
                litStringBody q fuel rest4 (acc ++ [Char.ofNat n])
              else none
            | none => none
          | none => none
        else if e = 'N' then none
        else litStringBody q fuel rest2 (acc ++ ['\\', e])
    else litStringBody q fuel rest (acc ++ [c])

/-- Strip the digit-group underscores of a Python numeric literal. -/
def stripUnderscores (cs : List Char) : List Char := cs.filter (fun c => c ≠ '_')

/-- Token characters of a Python numeric literal (digits, underscores,
dot, exponent letters, hex letters and signs after an exponent are
handled separately). -/
def litNumber (cs : List Char) : Option (PValue × List Char) :=
  let (sign, cs1) : Bool × List Char :=
    match cs with
    | '-' :: rest => (true, skipLitWs rest)
    | '+' :: rest => (false, skipLitWs rest)
    | _ => (false, cs)
  match cs1 with
  | '0' :: x :: rest =>
    if x = 'x' || x = 'X' then
      let digits := (x :: rest).tail.takeWhile (fun c => isHexDigitPy c || c = '_')
      let rest2 := (x :: rest).tail.dropWhile (fun c => isHexDigitPy c || c = '_')
      if (stripUnderscores digits).isEmpty then none
      else
        let v : Int := Int.ofNat ((stripUnderscores digits).foldl
          (fun acc c => acc * 16 + (hexVal c).getD 0) 0)
        some (.pint (if sign then -v else v), rest2)
    else litNumberDec sign cs1
  | _ => litNumberDec sign cs1
where
  litNumberDec (sign : Bool) (cs1 : List Char) : Option (PValue × List Char) :=
    let isDig := fun c => isAsciiDigitNat c.toNat || c = '_'
    let ip := cs1.takeWhile isDig
    let rest1 := cs1.dropWhile isDig
    let ipd := stripUnderscores ip
    match rest1 with
    | '.' :: r =>
      let fp := r.takeWhile isDig
      let rest2 := r.dropWhile isDig
      if ipd.isEmpty && (stripUnderscores fp).isEmpty then none
      else
        let (ep, rest3) := litExpPart rest2
        some (.pfloat ⟨(if sign then ['-'] else []) ++ ipd ++ ['.'] ++ stripUnderscores fp
          ++ stripUnderscores ep⟩, rest3)
    | _ =>
      if ipd.isEmpty then none
      else
        let (ep, rest3) := litExpPart rest1
        if ep.isEmpty then
          if ipd.length > 1 && ipd.headD '0' = '0' then none
          else some (.pint (if sign then -(Int.ofNat (natOfDigits ipd)) else Int.ofNat (natOfDigits ipd)), rest3)
        else
          some (.pfloat ⟨(if sign then ['-'] else []) ++ ipd ++ stripUnderscores ep⟩, rest3)
  litExpPart (cs2 : List Char) : List Char × List Char :=
    match cs2 with
    | e :: r =>
      if e = 'e' || e = 'E' then
        match r with
        | s :: r2 =>
          if s = '+' || s = '-' then
            if (r2.takeWhile (fun c => isAsciiDigitNat c.toNat || c = '_')).isEmpty then ([], cs2)
            else (e :: s :: r2.takeWhile (fun c => isAsciiDigitNat c.toNat || c = '_'),
              r2.dropWhile (fun c => isAsciiDigitNat c.toNat || c = '_'))
          else if (r.takeWhile (fun c => isAsciiDigitNat c.toNat || c = '_')).isEmpty then ([], cs2)
          else (e :: r.takeWhile (fun c => isAsciiDigitNat c.toNat || c = '_'),
            r.dropWhile (fun c => isAsciiDigitNat c.toNat || c = '_'))
        | [] => ([], cs2)
      else ([], cs2)
    | [] => ([], cs2)

mutual

/-- Parse one Python literal expression (no leading whitespace). -/
def litValue : Nat → List Char → Option (PValue × List Char)
  | 0, _ => none
  | fuel + 1, cs =>
    match cs with
    | [] => none
    | c :: rest =>
      if c = '\x7b' then
        match skipLitWs rest with
        | '\x7d' :: rest2 => some (.pdict [], rest2)
        | cs2 =>
          match litValue fuel cs2 with
          | none => none
          | some (k, rest2) =>
            match skipLitWs rest2 with
            | ':' :: rest3 => litDictEntries fuel (skipLitWs rest3) k []
            | ',' :: rest3 => litSetItems fuel (skipLitWs rest3) [k]
            | '\x7d' :: rest3 => some (.pset [k], rest3)
            | _ => none
      else if c = '[' then
        match skipLitWs rest with
        | ']' :: rest2 => some (.plist [], rest2)
        | cs2 => litListItems fuel cs2 []
      else if c = '(' then
        match skipLitWs rest with
        | ')' :: rest2 => some (.ptuple [], rest2)
        | cs2 =>
          match litValue fuel cs2 with
          | none => none
          | some (v, rest2) =>
            match skipLitWs rest2 with
            | ')' :: rest3 => some (v, rest3)
            | ',' :: rest3 =>
              match skipLitWs rest3 with
              | ')' :: rest4 => some (.ptuple [v], rest4)
              | cs3 => litTupleItems fuel cs3 [v]
            | _ => none
      else if c = '\x27' || c = '\x22' then
        (litStringBody c (rest.length + 1) rest []).map (fun p => (.pstr p.1, p.2))
      else if c = 'T' then
        if charsStart rest "rue".data then some (.pbool true, rest.drop 3) else none
      else if c = 'F' then
        if charsStart rest "alse".data then some (.pbool false, rest.drop 4) else none
      else if c = 'N' then
        if charsStart rest "one".data then some (.pnull, rest.drop 3) else none
      else if c = '-' || c = '+' || c = '.' || isAsciiDigitNat c.toNat then litNumber cs
      else none

/-- Parse `key: value` dict entries after the first key, comma separated
with an optional trailing comma. -/
def litDictEntries : Nat → List Char → PValue → List (PValue × PValue) →
    Option (PValue × List Char)
  | 0, _, _, _ => none
  | fuel + 1, cs, k, acc =>
    match litValue fuel cs with
    | none => none
    | some (v, rest) =>
      match skipLitWs rest with
      | ',' :: rest2 =>
        match skipLitWs rest2 with
        | '\x7d' :: rest3 => some (.pdict (acc ++ [(k, v)]), rest3)
        | cs3 =>
          match litValue fuel cs3 with
          | none => none
          | some (k2, rest4) =>
            match skipLitWs rest4 with
            | ':' :: rest5 => litDictEntries fuel (skipLitWs rest5) k2 (acc ++ [(k, v)])
            | _ => none
      | '\x7d' :: rest2 => some (.pdict (acc ++ [(k, v)]), rest2)
      | _ => none

/-- Parse list items, comma separated with an optional trailing comma. -/
def litListItems : Nat → List Char → List PValue → Option (PValue × List Char)
  | 0, _, _ => none
  | fuel + 1, cs, acc =>
    match litValue fuel cs with
    | none => none
    | some (v, rest) =>
      match skipLitWs rest with
      | ',' :: rest2 =>
        match skipLitWs rest2 with
        | ']' :: rest3 => some (.plist (acc ++ [v]), rest3)
        | cs3 => litListItems fuel cs3 (acc ++ [v])
      | ']' :: rest2 => some (.plist (acc ++ [v]), rest2)
      | _ => none

/-- Parse further tuple items, comma separated with an optional trailing
comma. -/
def litTupleItems : Nat → List Char → List PValue → Option (PValue × List Char)
  | 0, _, _ => none
  | fuel + 1, cs, acc =>
    match litValue fuel cs with
    | none => none
    | some (v, rest) =>
      match skipLitWs rest with
      | ',' :: rest2 =>
        match skipLitWs rest2 with
        | ')' :: rest3 => some (.ptuple (acc ++ [v]), rest3)
        | cs3 => litTupleItems fuel cs3 (acc ++ [v])
      | ')' :: rest2 => some (.ptuple (acc ++ [v]), rest2)
      | _ => none

/-- Parse further set items, comma separated with an optional trailing
comma. -/
def litSetItems : Nat → List Char → List PValue → Option (PValue × List Char)
  | 0, _, _ => none
  | fuel + 1, cs, acc =>
    match litValue fuel cs with
    | none => none
    | some (v, rest) =>
      match skipLitWs rest with
      | ',' :: rest2 =>
        match skipLitWs rest2 with
        | '\x7d' :: rest3 => some (.pset (acc ++ [v]), rest3)
        | cs3 => litSetItems fuel cs3 (acc ++ [v])
      | '\x7d' :: rest2 => some (.pset (acc ++ [v]), rest2)
      | _ => none

end

/-- Models `ast.literal_eval` on literal shapes: one expression with
surrounding whitespace, trailing text is an error. -/
def pyLiteralParse (s : String) : Option PValue :=
  match litValue (s.data.length + 1) (skipLitWs s.data) with
  | some (v, rest) => if (skipLitWs rest).isEmpty then some v else none
  | none => none

/-! ### Regex field extraction (the two `re.search` patterns of
`_extract_content_and_reply`, services.py lines 701-722) -/

/-- A single or double quote, as matched by the character class in the
patterns. -/
def isQuote (c : Char) : Bool := c == '\x27' || c == '\x22'

/-- Python regex whitespace skip (`\s*` before a non-space literal). -/
def dropPyWs (cs : List Char) : List Char := cs.dropWhile pyIsSpace

/-- Whether the next character closes the field (`(?:,|\x7d)` after
`\s*`). -/
def headIsCloseDelim (cs : List Char) : Bool :=
  match cs with
  | c :: _ => c == ',' || c == '\x7d'
  | [] => false

/-- Lazy capture of the strict pattern: the shortest prefix after which a
quote (either kind), optional whitespace and a comma or closing brace
follow. -/
def strictCapture : List Char → List Char → Option String
  | [], _ => none
  | c :: rest, acc =>
    if isQuote c && headIsCloseDelim (dropPyWs rest) then some ⟨acc⟩
    else strictCapture rest (acc ++ [c])

/-- Prefix of the strict pattern at a fixed start:
`[\x27\x22]key[\x27\x22]\s*:\s*[\x27\x22]`; returns the suffix where the
capture begins. -/
def matchStrictPrefixAt (key : List Char) (cs : List Char) : Option (List Char) :=
  match cs with
  | q1 :: r =>
    if isQuote q1 && charsStart r key then
      match r.drop key.length with
      | q2 :: r3 =>
        if isQuote q2 then
          match dropPyWs r3 with
          | ':' :: r5 =>
            match dropPyWs r5 with
            | q3 :: r7 => if isQuote q3 then some r7 else none
            | [] => none
          | _ => none
        else none
      | [] => none
    else none
  | [] => none

/-- Models `re.search` of the strict pattern
`[\x27\x22]key[\x27\x22]\s*:\s*[\x27\x22](.*?)[\x27\x22]\s*(?:,|\x7d)`
with DOTALL: leftmost start position wins, lazy capture at that start. -/
def searchStrict (key : List Char) : List Char → Option String
  | [] => none
  | c :: rest =>
    match matchStrictPrefixAt key (c :: rest) with
    | some r7 =>
      match strictCapture r7 [] with
      | some cap => some cap
      | none => searchStrict key rest
    | none => searchStrict key rest

/-- Lazy capture of the loose pattern when group 1 grabbed the opening
quote `q`: the shortest prefix after which the same quote, optional
whitespace and a comma or closing brace follow. -/
def looseQuotedCapture (q : Char) : List Char → List Char → Option String
  | [], _ => none
  | c :: rest, acc =>
    if c == q && headIsCloseDelim (dropPyWs rest) then some ⟨acc⟩
    else looseQuotedCapture q rest (acc ++ [c])

/-- Lazy capture of the loose pattern when group 1 is empty: the shortest
prefix after which optional whitespace and a comma or closing brace
follow. -/
def looseUnquotedCapture : List Char → List Char → Option String
  | [], _ => none
  | c :: rest, acc =>
    if headIsCloseDelim (dropPyWs (c :: rest)) then some ⟨acc⟩
    else looseUnquotedCapture rest (acc ++ [c])

/-- Capture of the loose pattern `([\x27\x22]?)(.*?)\1\s*(?:,|\x7d)` at a
fixed start: the optional group prefers to take a leading quote, and
backtracks to empty (so the quote joins the capture) when no close with
that quote exists. -/
def looseCaptureAt (cs : List Char) : Option String :=
  match cs with
  | q :: rest =>
    if isQuote q then
      match looseQuotedCapture q rest [] with
      | some cap => some cap
      | none => looseUnquotedCapture (q :: rest) []
    else looseUnquotedCapture (q :: rest) []
  | [] => none

/-- Prefix of the loose pattern at a fixed start: `key\s*:\s*`; returns
the suffix where group 1 begins. -/
def matchLoosePrefixAt (key : List Char) (cs : List Char) : Option (List Char) :=
  if charsStart cs key then
    match dropPyWs (cs.drop key.length) with
    | ':' :: r3 => some (dropPyWs r3)
    | _ => none
  else none

/-- Models `re.search` of the loose pattern
`key\s*:\s*([\x27\x22]?)(.*?)\1\s*(?:,|\x7d)` with DOTALL. -/
def searchLoose (key : List Char) : List Char → Option String
  | [] => none
  | c :: rest =>
    match matchLoosePrefixAt key (c :: rest) with
    | some r =>
      match looseCaptureAt r with
      | some cap => some cap
      | none => searchLoose key rest
    | none => searchLoose key rest

/-! ### `bytes(r, "utf-8").decode("unicode_escape")` (services.py lines
707 and 728) -/

/-- UTF-8 bytes of one character. -/
def utf8Bytes (c : Char) : List Nat :=
  let n := c.toNat
  if n < 0x80 then [n]
  else if n < 0x800 then [0xC0 + n / 64, 0x80 + n % 64]
  else if n < 0x10000 then [0xE0 + n / 4096, 0x80 + (n / 64) % 64, 0x80 + n % 64]
  else [0xF0 + n / 262144, 0x80 + (n / 4096) % 64, 0x80 + (n / 64) % 64, 0x80 + n % 64]

/-- UTF-8 encoding of a string, as `bytes(r, "utf-8")`. -/
def strUtf8Bytes (s : String) : List Nat := s.data.foldr (fun c acc => utf8Bytes c ++ acc) []

/-- Hex digit value of an ASCII byte. -/
def byteHexVal (b : Nat) : Option Nat :=
  if 48 ≤ b ∧ b ≤ 57 then some (b - 48)
  else if 97 ≤ b ∧ b ≤ 102 then some (b - 87)
  else if 65 ≤ b ∧ b ≤ 70 then some (b - 55)
  else none

/-- Octal digit value of an ASCII byte. -/
def byteOctVal (b : Nat) : Option Nat :=
  if 48 ≤ b ∧ b ≤ 55 then some (b - 48) else none

/-- Four hex-digit bytes. -/
def bhex4 (bs : List Nat) : Option (Nat × List Nat) :=
  match bs with
  | a :: b :: c :: d :: rest =>
    match byteHexVal a, byteHexVal b, byteHexVal c, byteHexVal d with
    | some x, some y, some z, some w => some (4096 * x + 256 * y + 16 * z + w, rest)
    | _, _, _, _ => none
  | _ => none

/-- Models the `unicode_escape` bytes codec: non-escape bytes decode as
latin-1; known escapes are replaced; a backslash-newline pair is removed;
an unknown escape keeps the backslash; a trailing backslash, a malformed
`\x`/`\u`/`\U`, or `\N` raises (none). Escapes naming a surrogate code
point, which Python would admit as a lone surrogate, are modelled as a
failure since the embedding has no surrogate characters. -/
def unicodeUnescapeBytes : Nat → List Nat → List Char → Option (List Char)
  | 0, _, _ => none
  | _ + 1, [], acc => some acc
  | fuel + 1, b :: rest, acc =>
    if b ≠ 92 then unicodeUnescapeBytes fuel rest (acc ++ [Char.ofNat b])
    else
      match rest with
      | [] => none
      | e :: rest2 =>
        if e = 10 then unicodeUnescapeBytes fuel rest2 acc
        else if e = 92 then unicodeUnescapeBytes fuel rest2 (acc ++ ['\\'])
        else if e = 39 then unicodeUnescapeBytes fuel rest2 (acc ++ ['\x27'])
        else if e = 34 then unicodeUnescapeBytes fuel rest2 (acc ++ ['\x22'])
        else if e = 97 then unicodeUnescapeBytes fuel rest2 (acc ++ ['\x07'])
        else if e = 98 then unicodeUnescapeBytes fuel rest2 (acc ++ ['\x08'])
        else if e = 102 then unicodeUnescapeBytes fuel rest2 (acc ++ ['\x0c'])
        else if e = 110 then unicodeUnescapeBytes fuel rest2 (acc ++ ['\n'])
        else if e = 114 then unicodeUnescapeBytes fuel rest2 (acc ++ ['\r'])
        else if e = 116 then unicodeUnescapeBytes fuel rest2 (acc ++ ['\t'])
        else if e = 118 then unicodeUnescapeBytes fuel rest2 (acc ++ ['\x0b'])
        else if (byteOctVal e).isSome then
          match rest2 with
          | d2 :: d3 :: rest3 =>
            match byteOctVal d2, byteOctVal d3 with
            | some v2, some v3 =>
              unicodeUnescapeBytes fuel rest3
                (acc ++ [Char.ofNat (((byteOctVal e).getD 0) * 64 + v2 * 8 + v3)])
            | some v2, none =>
              unicodeUnescapeBytes fuel (d3 :: rest3)
                (acc ++ [Char.ofNat (((byteOctVal e).getD 0) * 8 + v2)])
            | none, _ =>
              unicodeUnescapeBytes fuel (d2 :: d3 :: rest3)
                (acc ++ [Char.ofNat ((byteOctVal e).getD 0)])
          | [d2] =>
            match byteOctVal d2 with
            | some v2 =>
              unicodeUnescapeBytes fuel [] (acc ++ [Char.ofNat (((byteOctVal e).getD 0) * 8 + v2)])
            | none => unicodeUnescapeBytes fuel [d2] (acc ++ [Char.ofNat ((byteOctVal e).getD 0)])
          | [] => unicodeUnescapeBytes fuel [] (acc ++ [Char.ofNat ((byteOctVal e).getD 0)])
        else if e = 120 then
          match rest2 with
          | h1 :: h2 :: rest3 =>
            match byteHexVal h1, byteHexVal h2 with
            | some v1, some v2 =>
              unicodeUnescapeBytes fuel rest3 (acc ++ [Char.ofNat (16 * v1 + v2)])
            | _, _ => none
          | _ => none
        else if e = 117 then
          match bhex4 rest2 with
          | some (n, rest3) =>
            if 0xd800 ≤ n ∧ n ≤ 0xdfff then none
            else unicodeUnescapeBytes fuel rest3 (acc ++ [Char.ofNat n])
          | none => none
        else if e = 85 then
          match bhex4 rest2 with
          | some (hi, rest3) =>
            match bhex4 rest3 with
            | some (lo, rest4) =>
              let n := hi * 65536 + lo
              if n ≤ 0x10ffff ∧ ¬(0xd800 ≤ n ∧ n ≤ 0xdfff) then
                unicodeUnescapeBytes fuel rest4 (acc ++ [Char.ofNat n])
              else none
            | none => none
          | none => none
        else if e = 78 then none
        else unicodeUnescapeBytes fuel rest2 (acc ++ ['\\', Char.ofNat e])

/-- Models `bytes(r, "utf-8").decode("unicode_escape")`; none models the
decode raising (the caller keeps the original string in that case). -/
def pyUnicodeEscape (s : String) : Option String :=
  (unicodeUnescapeBytes ((strUtf8Bytes s).length + 1) (strUtf8Bytes s) []).map
    (fun cs => ⟨cs⟩)

/-! ### The unwrap cascade itself (services.py lines 653-754) -/

/-- Shared tail of the three parse stages: with a parsed dict in hand,
require a `content` key (`\x22content\x22 in parsed`), apply the
`or \x22\x22` truthiness default, and fetch `reply_relay`; the literal
stage additionally applies `str()` to the content. -/
def extractFromDict (strContent : Bool) (kvs : List (PValue × PValue)) :
    Option (PValue × Option PValue) :=
  match pdictGetStr kvs "content" with
  | none => none
  | some c =>
    let c2 := if pyTruthy c then c else .pstr ""
    some (if strContent then .pstr (pyStrVal c2) else c2, pdictGetStr kvs "reply_relay")

/-- Stage 1: strict JSON parse (`json.loads`). -/
def stageJson (s : String) : Option (PValue × Option PValue) :=
  match jsonParse s with
  | some (.pdict kvs) => extractFromDict false kvs
  | _ => none

/-- Stage 2: Python literal parse (`ast.literal_eval`), content passed
through `str()`. -/
def stageLit (s : String) : Option (PValue × Option PValue) :=
  match pyLiteralParse s with
  | some (.pdict kvs) => extractFromDict true kvs
  | _ => none

/-- Stage 3: single-quote to double-quote repair then JSON parse, only
when the string starts with a brace and ends with one. -/
def stageQuoteSwap (s : String) : Option (PValue × Option PValue) :=
  if pyStartsWith s "\x7b" && pyEndsWith s "\x7d" then
    match jsonParse (pyReplace s "\x27" "\x22") with
    | some (.pdict kvs) => extractFromDict false kvs
    | _ => none
  else none

/-- Stage 4: strict quoted regex extraction; the content capture is
unicode-unescaped (keeping the raw capture when the decode raises) and
must be non-empty; the reply-relay capture is stripped when truthy. -/
def stageRegexStrict (s : String) : Option (String × Option String) :=
  match searchStrict "content".data s.data with
  | none => none
  | some r0 =>
    let r := (pyUnicodeEscape r0).getD r0
    if r = "" then none
    else
      let rr :=
        match searchStrict "reply_relay".data s.data with
        | none => none
        | some rr0 => some (if rr0 ≠ "" then pyStrip rr0 else rr0)
      some (r, rr)

/-- Stage 5: loose regex extraction tolerating inconsistent quoting; a
non-empty capture is unicode-unescaped (keeping the capture when the
decode raises) and stripped, and the result must still be non-empty. -/
def stageRegexLoose (s : String) : Option (String × Option String) :=
  match searchLoose "content".data s.data with
  | none => none
  | some cand =>
    if cand = "" then none
    else
      let r2 := pyStrip ((pyUnicodeEscape cand).getD cand)
      if r2 = "" then none
      else
        let rr2 :=
          match searchLoose "reply_relay".data s.data with
          | none => none
          | some c2 => some (pyStrip c2)
        some (r2, rr2)

/-- Embeds `_extract_content_and_reply` on string input: strip, then the
five-stage cascade, then the wrapper-discard fallback for strings that
look structurally like a dict, else the stripped raw string. -/
def extractContentAndReply (raw : String) : PValue × Option PValue :=
  let s := pyStrip raw
  match stageJson s with
  | some res => res
  | none =>
  match stageLit s with
  | some res => res
  | none =>
  match stageQuoteSwap s with
  | some res => res
  | none =>
  match stageRegexStrict s with
  | some (r, rr) => (.pstr r, rr.map .pstr)
  | none =>
  match stageRegexLoose s with
  | some (r, rr) => (.pstr r, rr.map .pstr)
  | none =>
  if pyStartsWith s "\x7b" && pyEndsWith s "\x7d" && pyContains s ":" then (.pstr "", none)
  else (.pstr s, none)

/-! ## Lemmas about `_add_tag` folds -/

theorem mem_addTag {acc : List (List String)} {t x : List String}
    (hx : x ∈ addTag acc t) : x ∈ acc ∨ x = t := by
  unfold addTag at hx
  split at hx
  · exact Or.inl hx
  · split at hx
    · exact Or.inl hx
    · rcases List.mem_append.mp hx with h | h
      · exact Or.inl h
      · exact Or.inr (List.mem_singleton.mp h)

theorem mem_foldl_addTag {β : Type} (f : β → List String) :
    ∀ (l : List β) (acc : List (List String)) (x : List String),
      x ∈ l.foldl (fun a y => addTag a (f y)) acc → x ∈ acc ∨ ∃ y ∈ l, x = f y := by
  intro l
  induction l with
  | nil => intro acc x hx; exact Or.inl hx
  | cons y l ih =>
    intro acc x hx
    rcases ih (addTag acc (f y)) x hx with h | ⟨z, hz, hxz⟩
    · rcases mem_addTag h with h' | h'
      · exact Or.inl h'
      · exact Or.inr ⟨y, List.mem_cons_self .., h'⟩
    · exact Or.inr ⟨z, List.mem_cons_of_mem _ hz, hxz⟩

theorem mem_addTag_self {acc : List (List String)} {t : List String}
    (hne : t ≠ []) : t ∈ addTag acc t := by
  unfold addTag
  split
  · contradiction
  · split
    · assumption
    · exact List.mem_append.mpr (Or.inr (List.mem_singleton.mpr rfl))

theorem mem_addTag_of_mem {acc : List (List String)} {t x : List String}
    (hx : x ∈ acc) : x ∈ addTag acc t := by
  unfold addTag
  split
  · exact hx
  · split
    · exact hx
    · exact List.mem_append.mpr (Or.inl hx)

theorem filter_addTag_neg (p : List String → Bool) {t : List String}
    (acc : List (List String)) (h : p t = false) :
    (addTag acc t).filter p = acc.filter p := by
  unfold addTag
  split
  · rfl
  · split
    · rfl
    · simp [List.filter_append, h]

theorem filter_foldl_addTag {β : Type} (f : β → List String) (p : List String → Bool)
    (hp : ∀ y, p (f y) = true) (hne : ∀ y, f y ≠ []) :
    ∀ (l : List β) (acc : List (List String)),
      (l.foldl (fun a y => addTag a (f y)) acc).filter p
        = l.foldl (fun d y => if f y ∈ d then d else d ++ [f y]) (acc.filter p) := by
  intro l
  induction l with
  | nil => intro acc; rfl
  | cons y l ih =>
    intro acc
    rw [List.foldl_cons, List.foldl_cons, ih (addTag acc (f y))]
    congr 1
    unfold addTag
    split
    · exact absurd (by assumption) (hne y)
    · split
      · rename_i hmem
        have : f y ∈ acc.filter p := List.mem_filter.mpr ⟨hmem, hp y⟩
        simp [this]
      · rename_i hmem
        have : f y ∉ acc.filter p := fun hc => hmem (List.mem_of_mem_filter hc)
        simp [this, List.filter_append, hp y]

theorem foldl_dedup_of_fresh :
    ∀ (l : List (List String)) (acc : List (List String)), l.Nodup → (∀ x ∈ l, x ∉ acc) →
      l.foldl (fun d x => if x ∈ d then d else d ++ [x]) acc = acc ++ l := by
  intro l
  induction l with
  | nil => intro acc _ _; simp
  | cons x l ih =>
    intro acc hnd hfresh
    have hx : x ∉ acc := hfresh x (List.mem_cons_self ..)
    show l.foldl _ (if x ∈ acc then acc else acc ++ [x]) = _
    rw [if_neg hx, ih (acc ++ [x]) (List.Nodup.of_cons hnd)]
    · simp
    · intro z hz
      intro hc
      rcases List.mem_append.mp hc with h | h
      · exact hfresh z (List.mem_cons_of_mem _ hz) h
      · have : z = x := List.mem_singleton.mp h
        exact (List.nodup_cons.mp hnd).1 (this ▸ hz)

theorem nodup_appendUnique (t : List String) (c : String) (h : t.Nodup) :
    (appendUnique t c).Nodup := by
  unfold appendUnique
  split
  · exact h
  · split
    · exact h
    · rename_i hmem
      simp [List.nodup_append, h, hmem]

theorem nodup_foldl_appendUnique :
    ∀ (l : List String) (t : List String), t.Nodup → (l.foldl appendUnique t).Nodup := by
  intro l
  induction l with
  | nil => intro t h; exact h
  | cons c l ih => intro t h; exact ih _ (nodup_appendUnique t c h)

theorem nodup_normalizedEIds (eTags : List String) (replyEvent : Option String) :
    (normalizedEIds eTags replyEvent).Nodup := by
  unfold normalizedEIds
  have hbase : (eTags.foldl appendUnique []).Nodup :=
    nodup_foldl_appendUnique eTags [] List.nodup_nil
  cases replyEvent with
  | none => exact hbase
  | some r =>
    by_cases hr : r ≠ ""
    · simpa [hr] using nodup_appendUnique _ r hbase
    · simpa [hr] using hbase

theorem filter_foldl_addTag_neg {β : Type} (f : β → List String) (p : List String → Bool)
    (hp : ∀ y, p (f y) = false) :
    ∀ (l : List β) (acc : List (List String)),
      (l.foldl (fun a y => addTag a (f y)) acc).filter p = acc.filter p := by
  intro l
  induction l with
  | nil => intro acc; rfl
  | cons y l ih =>
    intro acc
    rw [List.foldl_cons, ih (addTag acc (f y)), filter_addTag_neg p acc (hp y)]

theorem filter_addTag_pos (p : List String → Bool) {t : List String}
    (acc : List (List String)) (h : p t = true) (hmem : t ∉ acc) (hne : t ≠ []) :
    (addTag acc t).filter p = acc.filter p ++ [t] := by
  unfold addTag
  rw [if_neg hne, if_neg hmem]
  simp [List.filter_append, h]

/-! ## Membership bounds for the composition stages -/

theorem mem_eStage {acc0 : List (List String)} {eIds : List String} {hint : String}
    {x : List String} (hx : x ∈ eStage acc0 eIds hint) :
    x ∈ acc0 ∨ isETag x = true := by
  unfold eStage at hx
  match eIds, hx with
  | [], hx => exact Or.inl hx
  | [r0], hx =>
    rcases mem_addTag hx with h | h
    · exact Or.inl h
    · exact Or.inr (by subst h; rfl)
  | r0 :: r1 :: rest, hx =>
    rcases mem_foldl_addTag mentionTag rest _ x hx with h | ⟨y, _, hy⟩
    · rcases mem_addTag h with h' | h'
      · rcases mem_addTag h' with h'' | h''
        · exact Or.inl h''
        · exact Or.inr (by subst h''; rfl)
      · exact Or.inr (by subst h'; rfl)
    · exact Or.inr (by subst hy; rfl)

theorem mem_pStage {acc : List (List String)} {pIds : List String} {x : List String}
    (hx : x ∈ pStage acc pIds) :
    x ∈ acc ∨ ∃ q ∈ pIds, x = ["p", q] := by
  unfold pStage at hx
  rcases mem_foldl_addTag (fun p => ["p", p]) pIds acc x hx with h | ⟨y, hy, hxy⟩
  · exact Or.inl h
  · exact Or.inr ⟨y, hy, hxy⟩

theorem mem_aStage {acc : List (List String)} {aTag : Option String} {x : List String}
    (hx : x ∈ aStage acc aTag) :
    x ∈ acc ∨ ∃ s, aTag = some s ∧ s ≠ "" ∧ pyStrip s ≠ "" ∧ x = ["a", pyStrip s] := by
  cases aTag with
  | none => exact Or.inl hx
  | some s =>
    simp only [aStage] at hx
    by_cases h1 : s ≠ ""
    · rw [if_pos h1] at hx
      by_cases h2 : pyStrip s ≠ ""
      · rw [if_pos h2] at hx
        rcases mem_addTag hx with h | h
        · exact Or.inl h
        · exact Or.inr ⟨s, rfl, h1, h2, h⟩
      · rw [if_neg h2] at hx; exact Or.inl hx
    · rw [if_neg h1] at hx; exact Or.inl hx

theorem mem_acc0_of_mem {tags : List (List String)} {x : List String}
    (hx : x ∈ tags.foldl addTag []) : x ∈ tags := by
  rcases mem_foldl_addTag id tags [] x hx with h | ⟨y, hy, hxy⟩
  · cases h
  · exact hxy ▸ hy

/-! ## Claim C1 -/

/-- C1: with no explicit `e` tags supplied on the side channel, the
event-reference tags composed by `publish_note` from a non-empty
accumulated reply id list are exactly: a single tag marked root when there
is one id; root then reply then mentions when there are two or more; the
mention tags carry no relay hint while root and reply carry the normalized
hint or the empty string. -/
theorem publish_note_threading_markers
    (tags : List (List String)) (eTags pTags : List String)
    (replyEvent aTag replyRelay : Option String)
    (htags : ∀ t ∈ tags, isETag t = false)
    (hne : normalizedEIds eTags replyEvent ≠ []) :
    (composeTags tags eTags pTags replyEvent aTag replyRelay).filter isETag
      = (match normalizedEIds eTags replyEvent with
         | [] => []
         | [r0] => [rootTag r0 ((normalizeRelayHint replyRelay).getD "")]
         | r0 :: r1 :: rest =>
           rootTag r0 ((normalizeRelayHint replyRelay).getD "")
             :: replyTag r1 ((normalizeRelayHint replyRelay).getD "")
             :: rest.map mentionTag) := by
  have hacc0 : ∀ x ∈ tags.foldl addTag [], isETag x = false :=
    fun x hx => htags x (mem_acc0_of_mem hx)
  have hacc0f : (tags.foldl addTag []).filter isETag = [] := by
    rw [List.filter_eq_nil_iff]
    intro x hx
    simp [hacc0 x hx]
  have hnd := nodup_normalizedEIds eTags replyEvent
  unfold composeTags
  -- the a-stage and p-stage do not touch e-tags
  have haf : ∀ (acc : List (List String)),
      (aStage acc aTag).filter isETag = acc.filter isETag := by
    intro acc
    cases aTag with
    | none => rfl
    | some s =>
      simp only [aStage]
      by_cases h1 : s ≠ ""
      · rw [if_pos h1]
        by_cases h2 : pyStrip s ≠ ""
        · rw [if_pos h2, filter_addTag_neg _ _ (by rfl)]
        · rw [if_neg h2]
      · rw [if_neg h1]
  have hpf : ∀ (acc : List (List String)),
      (pStage acc (validatedPIds pTags)).filter isETag = acc.filter isETag := by
    intro acc
    unfold pStage
    exact filter_foldl_addTag_neg (fun p => ["p", p]) isETag (fun y => rfl) _ acc
  rw [haf, hpf]
  set hint := (normalizeRelayHint replyRelay).getD "" with hhint
  set E := normalizedEIds eTags replyEvent with hE
  clear_value E
  match E, hne, hnd with
  | [r0], _, _ =>
    unfold eStage
    have hroot : rootTag r0 hint ∉ tags.foldl addTag [] := by
      intro hc
      have := hacc0 _ hc
      simp [isETag, rootTag] at this
    rw [filter_addTag_pos isETag _ (by rfl) hroot (by simp [rootTag]), hacc0f]
    simp
  | r0 :: r1 :: rest, _, hnd =>
    unfold eStage
    have hroot : rootTag r0 hint ∉ tags.foldl addTag [] := by
      intro hc
      have := hacc0 _ hc
      simp [isETag, rootTag] at this
    have hreply : replyTag r1 hint ∉ addTag (tags.foldl addTag []) (rootTag r0 hint) := by
      intro hc
      rcases mem_addTag hc with h | h
      · have := hacc0 _ h
        simp [isETag, replyTag] at this
      · simp [replyTag, rootTag] at h
    have hstep : (rest.foldl (fun acc x => addTag acc (mentionTag x))
          (addTag (addTag (tags.foldl addTag []) (rootTag r0 hint)) (replyTag r1 hint))).filter isETag
        = (rest.map mentionTag).foldl (fun d x => if x ∈ d then d else d ++ [x])
            ((addTag (addTag (tags.foldl addTag []) (rootTag r0 hint)) (replyTag r1 hint)).filter isETag) := by
      rw [filter_foldl_addTag mentionTag isETag (fun y => rfl) (fun y => by simp [mentionTag]) rest]
      rw [List.foldl_map]
    have hmnd : (rest.map mentionTag).Nodup :=
      List.Nodup.map (fun a b hab => by simpa [mentionTag] using hab)
        ((List.nodup_cons.mp (List.nodup_cons.mp hnd).2).2)
    have hfresh : ∀ z ∈ rest.map mentionTag,
        z ∉ ([] : List (List String)) ++ [rootTag r0 hint] ++ [replyTag r1 hint] := by
      intro z hz hc
      rcases List.mem_map.mp hz with ⟨y, _, hyz⟩
      subst hyz
      simp only [List.nil_append, List.mem_append, List.mem_singleton] at hc
      rcases hc with h | h
      · simp [mentionTag, rootTag] at h
      · simp [mentionTag, replyTag] at h
    simp only
    rw [hstep,
      filter_addTag_pos isETag _ (by rfl) hreply (by simp [replyTag]),
      filter_addTag_pos isETag _ (by rfl) hroot, hacc0f]
    · rw [foldl_dedup_of_fresh _ _ hmnd hfresh]
      simp
    · simp [rootTag]

/-- C1 witness: three accumulated reply ids produce root, reply and one
relay-hint-free mention. -/
theorem publish_note_threading_markers_witness :
    (∀ t ∈ ([] : List (List String)), isETag t = false)
    ∧ (composeTags [] ["a1", "b2", "c3"] [] none none none).filter isETag
      = [rootTag "a1" "", replyTag "b2" "", mentionTag "c3"] := by
  refine ⟨by simp, ?_⟩
  have h := publish_note_threading_markers [] ["a1", "b2", "c3"] [] none none none
    (by simp) (by decide)
  simpa using h

/-! ## Claim C8 -/

/-- C8: with no explicit `p` tags supplied on the side channel, the
pubkey-reference tags composed by `publish_note` are exactly the validated
candidates (stripped, lowercased, first occurrence kept), and every
composed `p` tag stems from a candidate that passed the strict
64-hex-character validation; invalid candidates are dropped without
failing the composition (the composition is a total function). -/
theorem publish_note_p_tag_validation
    (tags : List (List String)) (eTags pTags : List String)
    (replyEvent aTag replyRelay : Option String)
    (htags : ∀ t ∈ tags, isPTag t = false) :
    (composeTags tags eTags pTags replyEvent aTag replyRelay).filter isPTag
      = dedupKeepFirst ((validatedPIds pTags).map (fun p => ["p", p]))
    ∧ ∀ t ∈ composeTags tags eTags pTags replyEvent aTag replyRelay, isPTag t = true →
        ∃ q ∈ normalizedPIds pTags, validatePubkeyHex q = true
          ∧ t = ["p", pyLower (pyStrip q)] := by
  have hacc0 : ∀ x ∈ tags.foldl addTag [], isPTag x = false :=
    fun x hx => htags x (mem_acc0_of_mem hx)
  have hacc0f : (tags.foldl addTag []).filter isPTag = [] := by
    rw [List.filter_eq_nil_iff]
    intro x hx
    simp [hacc0 x hx]
  have heS : ∀ x ∈ eStage (tags.foldl addTag []) (normalizedEIds eTags replyEvent)
      ((normalizeRelayHint replyRelay).getD ""), isPTag x = false := by
    intro x hx
    rcases mem_eStage hx with h | h
    · exact hacc0 x h
    · have he : x.head? = some "e" := by
        have := of_decide_eq_true (by simpa [isETag] using h)
        exact this
      simp [isPTag, he]
  have heSf : (eStage (tags.foldl addTag []) (normalizedEIds eTags replyEvent)
      ((normalizeRelayHint replyRelay).getD "")).filter isPTag = [] := by
    rw [List.filter_eq_nil_iff]
    intro x hx
    simp [heS x hx]
  constructor
  · unfold composeTags
    have haf : ∀ (acc : List (List String)),
        (aStage acc aTag).filter isPTag = acc.filter isPTag := by
      intro acc
      cases aTag with
      | none => rfl
      | some s =>
        simp only [aStage]
        by_cases h1 : s ≠ ""
        · rw [if_pos h1]
          by_cases h2 : pyStrip s ≠ ""
          · rw [if_pos h2, filter_addTag_neg _ _ (by rfl)]
          · rw [if_neg h2]
        · rw [if_neg h1]
    rw [haf]
    unfold pStage
    rw [filter_foldl_addTag (fun p => ["p", p]) isPTag (fun y => rfl)
      (fun y => by simp) (validatedPIds pTags), heSf]
    unfold dedupKeepFirst
    rw [List.foldl_map]
  · intro t ht hpt
    unfold composeTags at ht
    rcases mem_aStage ht with ht1 | ⟨s, _, _, _, hts⟩
    · rcases mem_pStage ht1 with ht2 | ⟨q, hq, htq⟩
      · have := heS t ht2
        rw [hpt] at this
        cases this
      · rcases List.mem_filterMap.mp hq with ⟨orig, horig, hcond⟩
        by_cases hval : validatePubkeyHex orig
        · rw [if_pos hval] at hcond
          exact ⟨orig, horig, hval, by rw [htq, Option.some_inj.mp hcond]⟩
        · rw [if_neg hval] at hcond
          cases hcond
    · rw [hts] at hpt
      simp [isPTag] at hpt

/-- C8 witness: one valid mixed-case candidate becomes a lowercased `p`
tag and one invalid candidate is dropped. -/
theorem publish_note_p_tag_validation_witness :
    (∀ t ∈ ([] : List (List String)), isPTag t = false)
    ∧ (composeTags [] []
        ["AAAAAAAAAAAAAAAAAAAAAAAAAAAAAAAAAAAAAAAAAAAAAAAAAAAAAAAAAAAAAAAA", "nope"]
        none none none).filter isPTag
      = dedupKeepFirst ((validatedPIds
        ["AAAAAAAAAAAAAAAAAAAAAAAAAAAAAAAAAAAAAAAAAAAAAAAAAAAAAAAAAAAAAAAA", "nope"]).map
          (fun p => ["p", p])) := by
  refine ⟨by simp, ?_⟩
  exact (publish_note_p_tag_validation [] []
    ["AAAAAAAAAAAAAAAAAAAAAAAAAAAAAAAAAAAAAAAAAAAAAAAAAAAAAAAAAAAAAAAA", "nope"]
    none none none (by simp)).1

/-! ## Claim C9 (corrected) -/

/-- C9 counterexample: a container-reference `a` tag that is present but
does not start with `30311:` yields kind 1, not the reply-to-live-container
kind 1311 demanded by the claim. -/
theorem publish_note_kind_counterexample :
    ["a", "30023:abc:def"] ∈ composeTags [] [] [] none (some "30023:abc:def") none
    ∧ kindOf (composeTags [] [] [] none (some "30023:abc:def") none) = 1 := by
  constructor
  · decide
  · decide

/-- C9 amended: with no explicit `a` tags supplied on the side channel,
the event kind is 1311 exactly when the container reference is present,
truthy after stripping, and its value starts with `30311:`; any other `a`
tag (or none) yields the default kind 1. -/
theorem publish_note_kind_selection
    (tags : List (List String)) (eTags pTags : List String)
    (replyEvent aTag replyRelay : Option String)
    (htags : ∀ t ∈ tags, t.head? ≠ some "a") :
    kindOf (composeTags tags eTags pTags replyEvent aTag replyRelay)
      = (match aTag with
         | some s =>
           if s ≠ "" ∧ pyStrip s ≠ "" ∧ pyStartsWith (pyStrip s) "30311:" then 1311 else 1
         | none => 1) := by
  have hmem : ∀ t ∈ composeTags tags eTags pTags replyEvent aTag replyRelay,
      is30311Tag t = true →
      ∃ s, aTag = some s ∧ s ≠ "" ∧ pyStrip s ≠ "" ∧ pyStartsWith (pyStrip s) "30311:" = true := by
    intro t ht h30
    have hhead : t.head? = some "a" := by
      unfold is30311Tag at h30
      match t, h30 with
      | a :: b :: r, h30 =>
        have := (Bool.and_eq_true _ _).mp h30
        have ha : a = "a" := of_decide_eq_true this.1
        simp [ha]
    unfold composeTags at ht
    rcases mem_aStage ht with ht1 | ⟨s, hs, h1, h2, hts⟩
    · rcases mem_pStage ht1 with ht2 | ⟨q, _, htq⟩
      · rcases mem_eStage ht2 with ht3 | he
        · exact absurd hhead (htags t (mem_acc0_of_mem ht3))
        · have : t.head? = some "e" := of_decide_eq_true (by simpa [isETag] using he)
          rw [this] at hhead
          simp at hhead
      · rw [htq] at hhead
        simp at hhead
    · refine ⟨s, hs, h1, h2, ?_⟩
      rw [hts] at h30
      unfold is30311Tag at h30
      exact ((Bool.and_eq_true _ _).mp h30).2
  match aTag with
  | none =>
    unfold kindOf
    rw [if_neg]
    intro hany
    rcases List.any_eq_true.mp hany with ⟨t, ht, h30⟩
    rcases hmem t ht h30 with ⟨s, hs, _⟩
    cases hs
  | some s =>
    by_cases hcond : s ≠ "" ∧ pyStrip s ≠ "" ∧ pyStartsWith (pyStrip s) "30311:" = true
    · simp only [if_pos hcond]
      unfold kindOf
      rw [if_pos]
      refine List.any_eq_true.mpr ⟨["a", pyStrip s], ?_, ?_⟩
      · simp only [composeTags, aStage]
        rw [if_pos hcond.1, if_pos hcond.2.1]
        exact mem_addTag_self (by simp)
      · unfold is30311Tag
        simp [hcond.2.2]
    · simp only [if_neg hcond]
      unfold kindOf
      rw [if_neg]
      intro hany
      rcases List.any_eq_true.mp hany with ⟨t, ht, h30⟩
      rcases hmem t ht h30 with ⟨s', hs', h1, h2, h3⟩
      have he : s = s' := Option.some_inj.mp hs'
      subst he
      exact hcond ⟨h1, h2, h3⟩

/-- C9 amended witness: a 30311 container reference selects kind 1311. -/
theorem publish_note_kind_selection_witness :
    (∀ t ∈ ([] : List (List String)), t.head? ≠ some "a")
    ∧ kindOf (composeTags [] [] [] none (some "30311:pk:id") none) = 1311 := by
  refine ⟨by simp, ?_⟩
  have h := publish_note_kind_selection [] [] [] none (some "30311:pk:id") none (by simp)
  rw [h]
  decide

/-! ## Claim C5 (corrected) -/

/-- C5 counterexample: on the empty pool both the random draw and the
`next(iter(...))` fallback of `_pick_template` fail, so selection raises
(`none`) instead of returning a deterministic first entry. -/
theorem pick_template_empty_counterexample :
    pickTemplate ([] : List String) 0 = none := rfl

/-- C5 amended: on every non-empty pool, selection never throws — a failed
random draw falls back to the deterministic first entry. -/
theorem pick_template_nonempty_total {α : Type} (pool : List α) (i : Nat)
    (hne : pool ≠ []) : (pickTemplate pool i).isSome = true := by
  unfold pickTemplate
  match h : pool.get? i with
  | some v => rfl
  | none =>
    match pool, hne with
    | x :: rest, _ => rfl

/-- C5 amended witness: a singleton pool with an out-of-range draw still
yields an entry. -/
theorem pick_template_nonempty_total_witness :
    (["only"] : List String) ≠ [] ∧ (pickTemplate ["only"] 7).isSome = true :=
  ⟨by decide, pick_template_nonempty_total ["only"] 7 (by decide)⟩

/-! ## Claim C6 -/

/-- C6: when the `nostr_publishing_enabled` setting is "0", `publish_note`
returns success without invoking the signer (and hence without any network
call), whatever the availability flag, bunker outcome, and tag inputs. -/
theorem publish_note_disabled_returns_success
    (avail bunkerOk : Bool) (tags : List (List String)) (eTags pTags : List String)
    (replyEvent aTag replyRelay : Option String) :
    publishNote (some "0") avail bunkerOk tags eTags pTags replyEvent aTag replyRelay
      = { result := true, signerInvoked := false, signedKind := none, signedTags := none } := by
  have h : isNostrPublishingEnabled (some "0") avail = false := by
    simp only [isNostrPublishingEnabled]
    rw [if_pos (by decide)]
  unfold publishNote
  rw [if_pos h]

/-! ## Claim C10 -/

/-- C10: the disabled check trims and lowercases the stored setting value
and disables publishing exactly on "0", "false", "no", "off" and the empty
string (so " OFF " and an empty-string row disable it); any other present
value leaves publishing governed by the availability flag alone, and an
absent row likewise. -/
theorem nostr_publishing_setting_normalization :
    (∀ (v : String) (avail : Bool), pyLower (pyStrip v) ∈ disabledSettingValues →
        isNostrPublishingEnabled (some v) avail = false)
    ∧ (∀ (v : String) (avail : Bool), pyLower (pyStrip v) ∉ disabledSettingValues →
        isNostrPublishingEnabled (some v) avail = avail)
    ∧ (∀ avail : Bool, isNostrPublishingEnabled (some " OFF ") avail = false)
    ∧ (∀ avail : Bool, isNostrPublishingEnabled (some "") avail = false)
    ∧ (∀ avail : Bool, isNostrPublishingEnabled none avail = avail) := by
  refine ⟨?_, ?_, ?_, ?_, ?_⟩
  · intro v avail hv
    simp only [isNostrPublishingEnabled]
    rw [if_pos hv]
  · intro v avail hv
    simp only [isNostrPublishingEnabled]
    rw [if_neg hv]
  · intro avail
    simp only [isNostrPublishingEnabled]
    rw [if_pos (by decide)]
  · intro avail
    simp only [isNostrPublishingEnabled]
    rw [if_pos (by decide)]
  · intro avail
    rfl

/-- C10 witness: " No " disables publishing, "yes" leaves it governed by
availability. -/
theorem nostr_publishing_setting_normalization_witness :
    pyLower (pyStrip " No ") ∈ disabledSettingValues
    ∧ isNostrPublishingEnabled (some " No ") true = false
    ∧ pyLower (pyStrip "yes") ∉ disabledSettingValues
    ∧ isNostrPublishingEnabled (some "yes") true = true :=
  ⟨by decide, nostr_publishing_setting_normalization.1 " No " true (by decide),
    by decide, nostr_publishing_setting_normalization.2.1 "yes" true (by decide)⟩

/-! ## Claim C4 (corrected) -/

theorem hexVal_none {c : Char} (h : isHexDigitPy c = false) : hexVal c = none := by
  unfold isHexDigitPy at h
  unfold hexVal
  rw [if_neg (by simp_all), if_neg (by simp_all), if_neg (by simp_all)]

theorem hexVal_is_hex {c : Char} {v : Nat} (h : hexVal c = some v) :
    isHexDigitPy c = true := by
  by_contra hc
  rw [hexVal_none (by simpa using hc)] at h
  cases h

theorem bytesFromHexChars_bad (cs : List Char)
    (hbad : ∃ c ∈ cs, isHexDigitPy c = false ∧ pyIsSpace c = false) :
    bytesFromHexChars cs = none := by
  suffices H : ∀ (n : Nat) (cs : List Char), cs.length ≤ n →
      (∃ c ∈ cs, isHexDigitPy c = false ∧ pyIsSpace c = false) →
      bytesFromHexChars cs = none from H cs.length cs le_rfl hbad
  intro n
  induction n with
  | zero =>
    intro cs hlen hbad
    match cs, hlen with
    | [], _ => rcases hbad with ⟨c, hc, _⟩; cases hc
  | succ n ih =>
    intro cs hlen hbad
    match cs with
    | [] => rcases hbad with ⟨c, hc, _⟩; cases hc
    | c :: rest =>
      unfold bytesFromHexChars
      by_cases hws : pyIsSpace c = true
      · rw [if_pos hws]
        apply ih rest (by simpa using Nat.le_of_succ_le_succ (by simpa using hlen))
        rcases hbad with ⟨b, hb, h1, h2⟩
        rcases List.mem_cons.mp hb with h | h
        · subst h; rw [hws] at h2; cases h2
        · exact ⟨b, h, h1, h2⟩
      · rw [if_neg hws]
        cases hh1 : hexVal c with
        | none => rfl
        | some hv =>
          have hbc : isHexDigitPy c = true := hexVal_is_hex hh1
          match rest with
          | [] => rfl
          | c2 :: rest2 =>
            show (match hexVal c2 with
                  | none => none
                  | some h2 =>
                    Option.map (fun bs => (16 * hv + h2) :: bs) (bytesFromHexChars rest2)) = none
            cases hh2 : hexVal c2 with
            | none => rfl
            | some h2v =>
              have hbc2 : isHexDigitPy c2 = true := hexVal_is_hex hh2
              have hbrest : ∃ b ∈ rest2, isHexDigitPy b = false ∧ pyIsSpace b = false := by
                rcases hbad with ⟨b, hb, hb1, hb2⟩
                rcases List.mem_cons.mp hb with h | h
                · subst h; rw [hbc] at hb1; cases hb1
                · rcases List.mem_cons.mp h with h' | h'
                  · subst h'; rw [hbc2] at hb1; cases hb1
                  · exact ⟨b, h', hb1, hb2⟩
              have hlen2 : rest2.length ≤ n := by
                have := hlen
                simp only [List.length_cons] at this
                omega
              rw [ih rest2 hlen2 hbrest]
              rfl

set_option maxRecDepth 8192 in
/-- C4 counterexample: a 64-character event id made of hex pairs with two
internal spaces is not 64 hex characters, yet `format_nostr_event_reference`
accepts it (bytes.fromhex skips ASCII whitespace) and returns a reference
instead of the `None` the claim demands. -/
theorem format_event_reference_whitespace_counterexample :
    (' ' ∈ ("aaaaaaaaaaaaaaaaaaaaaaaaaaaaaa  aaaaaaaaaaaaaaaaaaaaaaaaaaaaaaaa" : String).data)
    ∧ (pyStrip "aaaaaaaaaaaaaaaaaaaaaaaaaaaaaa  aaaaaaaaaaaaaaaaaaaaaaaaaaaaaaaa").length = 64
    ∧ (formatNostrEventReference
        (some "aaaaaaaaaaaaaaaaaaaaaaaaaaaaaa  aaaaaaaaaaaaaaaaaaaaaaaaaaaaaaaa")).isSome
      = true := by
  refine ⟨by decide, by decide, ?_⟩
  rfl

/-- C4 amended: both encoders return `none`, never raising, whenever the
trimmed input does not have length 64, or whenever its lowercased trimmed
form contains a character that is neither a hex digit nor ASCII whitespace;
however, a 64-character trimmed input consisting of hex digit pairs
separated by internal ASCII whitespace is accepted by the underlying
`bytes.fromhex` (see the counterexample), so mere presence of non-hex
whitespace characters does not guarantee `none`. -/
theorem format_reference_rejects_invalid (s : String) :
    ((pyStrip s).length ≠ 64 →
      formatNostrEventReference (some s) = none ∧ formatNostrPubkey (some s) = none)
    ∧ ((∃ c ∈ (pyLower (pyStrip s)).data, isHexDigitPy c = false ∧ pyIsSpace c = false) →
      formatNostrEventReference (some s) = none ∧ formatNostrPubkey (some s) = none) := by
  have hlen : (pyLower (pyStrip s)).length = (pyStrip s).length := by
    show ((pyStrip s).data.map Char.toLower).length = (pyStrip s).data.length
    exact List.length_map _ _
  constructor
  · intro hl
    constructor
    · simp only [formatNostrEventReference]
      by_cases he : s = ""
      · rw [if_pos he]
      · rw [if_neg he, if_pos (by rw [hlen]; exact hl)]
    · simp only [formatNostrPubkey]
      by_cases he : s = ""
      · rw [if_pos he]
      · rw [if_neg he, if_pos (by rw [hlen]; exact hl)]
  · intro hbad
    have hbytes : bytesFromHex (pyLower (pyStrip s)) = none :=
      bytesFromHexChars_bad _ hbad
    constructor
    · simp only [formatNostrEventReference]
      by_cases he : s = ""
      · rw [if_pos he]
      · rw [if_neg he]
        by_cases hl : (pyLower (pyStrip s)).length ≠ 64
        · rw [if_pos hl]
        · rw [if_neg hl, hbytes]
    · simp only [formatNostrPubkey]
      by_cases he : s = ""
      · rw [if_pos he]
      · rw [if_neg he]
        by_cases hl : (pyLower (pyStrip s)).length ≠ 64
        · rw [if_pos hl]
        · rw [if_neg hl]
          unfold hexToNpub
          rw [hbytes]

set_option maxRecDepth 8192 in
/-- C4 amended witness: a short input and a 64-character non-hex input
both yield `none` from both encoders. -/
theorem format_reference_rejects_invalid_witness :
    ((pyStrip "xyz").length ≠ 64
      ∧ formatNostrEventReference (some "xyz") = none
      ∧ formatNostrPubkey (some "xyz") = none)
    ∧ ((∃ c ∈ (pyLower (pyStrip "zzzzzzzzzzzzzzzzzzzzzzzzzzzzzzzzzzzzzzzzzzzzzzzzzzzzzzzzzzzzzzzz")).data,
          isHexDigitPy c = false ∧ pyIsSpace c = false)
      ∧ formatNostrEventReference
          (some "zzzzzzzzzzzzzzzzzzzzzzzzzzzzzzzzzzzzzzzzzzzzzzzzzzzzzzzzzzzzzzzz") = none
      ∧ formatNostrPubkey
          (some "zzzzzzzzzzzzzzzzzzzzzzzzzzzzzzzzzzzzzzzzzzzzzzzzzzzzzzzzzzzzzzzz") = none) := by
  constructor
  · exact ⟨by decide, ((format_reference_rejects_invalid "xyz").1 (by decide)).1,
      ((format_reference_rejects_invalid "xyz").1 (by decide)).2⟩
  · exact ⟨by decide,
      ((format_reference_rejects_invalid
        "zzzzzzzzzzzzzzzzzzzzzzzzzzzzzzzzzzzzzzzzzzzzzzzzzzzzzzzzzzzzzzzz").2 (by decide)).1,
      ((format_reference_rejects_invalid
        "zzzzzzzzzzzzzzzzzzzzzzzzzzzzzzzzzzzzzzzzzzzzzzzzzzzzzzzzzzzzzzzz").2 (by decide)).2⟩

/-! ## Claim C2 -/

theorem natToStrAux_head (fuel n : Nat) :
    ∃ m rest, m < 10 ∧ natToStrAux (fuel + 1) n = Char.ofNat (48 + m) :: rest := by
  induction fuel generalizing n with
  | zero =>
    unfold natToStrAux
    by_cases h : n < 10
    · exact ⟨n, [], h, by rw [if_pos h]⟩
    · refine ⟨n % 10, [], Nat.mod_lt _ (by norm_num), ?_⟩
      rw [if_neg h]
      rfl
  | succ fuel ih =>
    unfold natToStrAux
    by_cases h : n < 10
    · exact ⟨n, [], h, by rw [if_pos h]⟩
    · obtain ⟨m, rest, hm, heq⟩ := ih (n / 10)
      refine ⟨m, rest ++ [Char.ofNat (48 + n % 10)], hm, ?_⟩
      rw [if_neg h, heq]
      rfl

theorem isPyIdentifier_natToStr (n : Nat) : isPyIdentifier (natToStr n) = false := by
  obtain ⟨m, rest, hm, heq⟩ := natToStrAux_head n n
  have hstart : identStartChar (Char.ofNat (48 + m)) = false := by
    interval_cases m <;> decide
  show (match (natToStr n).data with
        | [] => false
        | c :: rest => identStartChar c && rest.all identContChar) = false
  have hdata : (natToStr n).data = Char.ofNat (48 + m) :: rest := heq
  rw [hdata]
  simp [hstart]

theorem identStart_not_digit {c : Char} (h : identStartChar c = true) :
    isAsciiDigitNat c.toNat = false := by
  unfold identStartChar at h
  rw [Bool.or_eq_true] at h
  rcases h with h | h
  · unfold isAsciiAlphaNat at h
    rw [Bool.or_eq_true] at h
    unfold isAsciiDigitNat
    rcases h with h | h <;>
    · have h1 := (Bool.and_eq_true _ _).mp h
      have ha := of_decide_eq_true h1.1
      have hb := of_decide_eq_true h1.2
      simp only [Bool.and_eq_false_iff, decide_eq_false_iff_not]
      omega
  · have hc : c = '_' := by simpa using h
    subst hc
    decide

theorem ident_not_digits {s : String} (h : isPyIdentifier s = true) :
    isPyDigits s = false := by
  unfold isPyIdentifier at h
  unfold isPyDigits
  cases hd : s.data with
  | nil => rw [hd] at h; cases h
  | cons c rest =>
    rw [hd] at h
    have h2 : (identStartChar c && rest.all identContChar) = true := h
    have hstart : identStartChar c = true := ((Bool.and_eq_true _ _).mp h2).1
    simp [identStart_not_digit hstart]

theorem ident_ne_empty {s : String} (h : isPyIdentifier s = true) : s ≠ "" := by
  intro hc
  subst hc
  cases h

theorem autoHandle_ident {name : String} (auto : Option Nat)
    (h : isPyIdentifier name = true) : autoHandle name auto = some (name, auto) := by
  unfold autoHandle
  rw [if_neg (by simpa using ident_ne_empty h), if_neg (by simp [ident_not_digits h])]

theorem autoHandle_bad {name : String} (auto : Option Nat)
    (hid : isPyIdentifier name = false) :
    autoHandle name auto = none
    ∨ ∃ name2 auto2, autoHandle name auto = some (name2, auto2)
        ∧ isPyIdentifier name2 = false := by
  by_cases h0 : name = ""
  · cases auto with
    | none => exact Or.inl (by simp only [autoHandle, if_pos h0])
    | some n =>
      exact Or.inr ⟨natToStr n, some (n + 1),
        by simp only [autoHandle, if_pos h0], isPyIdentifier_natToStr n⟩
  · by_cases hd : isPyDigits name
    · cases auto with
      | none =>
        exact Or.inr ⟨name, none,
          by simp only [autoHandle, if_neg h0, if_pos hd], hid⟩
      | some n =>
        by_cases hn : n > 0
        · exact Or.inl (by simp only [autoHandle, if_neg h0, if_pos hd, if_pos hn])
        · exact Or.inr ⟨name, none,
            by simp only [autoHandle, if_neg h0, if_pos hd, if_neg hn], hid⟩
    · exact Or.inr ⟨name, auto,
        by simp only [autoHandle, if_neg h0, if_neg hd], hid⟩

theorem bind_const_none {α β : Type} (x : Option α) :
    (x.bind fun _ => (none : Option β)) = none := by cases x <;> rfl

theorem runItemsWith_bad (resolve : String → Option String)
    (renderSpec : String → Option Nat → Option (String × Option Nat))
    (hres : ∀ name, isPyIdentifier name = false → resolve name = none) :
    ∀ (items : List FormatItem) (auto : Option Nat),
      (∃ i ∈ items, ∃ fld, i.field = some fld ∧ isPyIdentifier fld.name = false) →
      runItemsWith resolve renderSpec items auto = none := by
  intro items
  induction items with
  | nil => rintro auto ⟨i, hi, _⟩; cases hi
  | cons item items ih =>
    rintro auto ⟨i, hi, fld, hfld, hid⟩
    rcases List.mem_cons.mp hi with hcase | hcase
    · subst hcase
      rcases autoHandle_bad auto hid with hah | ⟨name2, auto2, hah, hid2⟩
      · simp only [runItemsWith, hfld, hah, Option.none_bind]
      · simp only [runItemsWith, hfld, hah, Option.some_bind, hres name2 hid2,
          Option.none_bind]
    · have IH : ∀ a, runItemsWith resolve renderSpec items a = none :=
        fun a => ih a ⟨i, hcase, fld, hfld, hid⟩
      cases hf : item.field with
      | none => simp [runItemsWith, hf, IH]
      | some fld0 => simp [runItemsWith, hf, IH, bind_const_none]

theorem vfmt_empty (resolve : String → Option String) (fuel : Nat) (auto : Option Nat) :
    vfmt resolve (fuel + 1) "" auto = some ("", auto) := rfl

theorem runItemsWith_bare (ctx : List (String × String))
    (renderSpec : String → Option Nat → Option (String × Option Nat))
    (hspec : ∀ auto, renderSpec "" auto = some ("", auto)) :
    ∀ (items : List FormatItem) (auto : Option Nat),
      (∀ i ∈ items, ∀ fld, i.field = some fld →
        isPyIdentifier fld.name = true ∧ fld.conv = none ∧ fld.spec = "") →
      runItemsWith (safeResolve ctx) renderSpec items auto
        = some (renderBare ctx items, auto) := by
  intro items
  induction items with
  | nil => intro auto _; rfl
  | cons item items ih =>
    intro auto hbare
    have htail : ∀ i ∈ items, ∀ fld, i.field = some fld →
        isPyIdentifier fld.name = true ∧ fld.conv = none ∧ fld.spec = "" :=
      fun i hi => hbare i (List.mem_cons_of_mem _ hi)
    have hfs : ∀ w : String, formatStrSpec w "" = some w := fun w => rfl
    cases hf : item.field with
    | none => simp [runItemsWith, renderBare, hf, ih auto htail]
    | some fld =>
      obtain ⟨hid, hconv, hsp⟩ := hbare item (List.mem_cons_self ..) fld hf
      have hres : safeResolve ctx fld.name
          = some ((ctx.lookup fld.name).getD ("\x7b" ++ fld.name ++ "\x7d")) := by
        unfold safeResolve
        rw [if_pos hid]
        cases ctx.lookup fld.name <;> rfl
      simp only [runItemsWith, renderBare, hf, autoHandle_ident auto hid, Option.some_bind,
        hres, hconv, convertField, hsp, hspec auto, hfs, ih auto htail, Option.map_some]
      rfl

/-- C2: the safe renderer substitutes only bare identifier placeholders
(any parsed field whose name is not a plain identifier makes the whole
render raise); in a template whose fields are all bare identifiers, a
placeholder with no matching context entry is left intact verbatim while
matched ones are substituted; rendering "Hello {name}" with name bound to
"Alice" yields "Hello Alice". -/
theorem safe_formatter_contract :
    (∀ (t : String) (ctx : List (String × String)) (items : List FormatItem),
        parseFormatTop t = some items →
        (∃ i ∈ items, ∃ fld, i.field = some fld ∧ isPyIdentifier fld.name = false) →
        safeFormat t ctx = none)
    ∧ (∀ (t : String) (ctx : List (String × String)) (items : List FormatItem),
        parseFormatTop t = some items →
        (∀ i ∈ items, ∀ fld, i.field = some fld →
          isPyIdentifier fld.name = true ∧ fld.conv = none ∧ fld.spec = "") →
        safeFormat t ctx = some (renderBare ctx items))
    ∧ safeFormat "Hello \x7bname\x7d" [("name", "Alice")] = some "Hello Alice" := by
  refine ⟨?_, ?_, by rfl⟩
  · intro t ctx items hparse hbad
    unfold safeFormat
    have h3 : vfmt (safeResolve ctx) 3 t (some 0)
        = match parseFormatTop t with
          | none => none
          | some items => runItemsWith (safeResolve ctx) (vfmt (safeResolve ctx) 2) items (some 0) := rfl
    rw [h3, hparse]
    show Option.map (fun p => p.1)
      (runItemsWith (safeResolve ctx) (vfmt (safeResolve ctx) 2) items (some 0)) = none
    rw [runItemsWith_bad (safeResolve ctx) (vfmt (safeResolve ctx) 2)
      (fun name hn => by unfold safeResolve; rw [if_neg (by simp [hn])]) items (some 0) hbad]
    rfl
  · intro t ctx items hparse hbare
    unfold safeFormat
    have h3 : vfmt (safeResolve ctx) 3 t (some 0)
        = match parseFormatTop t with
          | none => none
          | some items => runItemsWith (safeResolve ctx) (vfmt (safeResolve ctx) 2) items (some 0) := rfl
    rw [h3, hparse]
    show Option.map (fun p => p.1)
      (runItemsWith (safeResolve ctx) (vfmt (safeResolve ctx) 2) items (some 0))
      = some (renderBare ctx items)
    rw [runItemsWith_bare ctx (vfmt (safeResolve ctx) 2)
      (fun auto => vfmt_empty (safeResolve ctx) 1 auto) items (some 0) hbare]
    rfl

/-- C2 witness: an attribute-access placeholder raises; an unresolved bare
placeholder is left intact. -/
theorem safe_formatter_contract_witness :
    (parseFormatTop "\x7ba.b\x7d" = some [⟨"", some ⟨"a.b", none, ""⟩⟩]
      ∧ safeFormat "\x7ba.b\x7d" [("a", "x")] = none)
    ∧ (parseFormatTop "Hi \x7bwho\x7d" = some [⟨"Hi ", some ⟨"who", none, ""⟩⟩]
      ∧ safeFormat "Hi \x7bwho\x7d" []
          = some (renderBare [] [⟨"Hi ", some ⟨"who", none, ""⟩⟩])) := by
  refine ⟨⟨by rfl, ?_⟩, ⟨by rfl, ?_⟩⟩
  · exact safe_formatter_contract.1 "\x7ba.b\x7d" [("a", "x")]
      [⟨"", some ⟨"a.b", none, ""⟩⟩] (by rfl) (by decide)
  · exact safe_formatter_contract.2.1 "Hi \x7bwho\x7d" []
      [⟨"Hi ", some ⟨"who", none, ""⟩⟩] (by rfl) (by decide)

/-! ## Claim C7 -/

set_option maxRecDepth 16384 in
/-- C7: the reply-context inputs affect the membership-branch render only
by stripping the promotional trailer from the protocol channel — the
display channel is identical with or without them, the protocol channel
equals the context-free render with the trailer removed exactly when both
container inputs are truthy, and is unchanged otherwise; concretely, a
reply into a live container excludes the trailer from the protocol content
while the display content keeps it. -/
theorem build_message_promo_trailer_policy :
    (∀ (ov : List (String × TmplPool)) (item : ChItem) (spots difference : Int)
        (replyEvent aTag : Option String) (iMain iThanks iHead : Nat),
      buildMessageCyberHerd ov item spots difference replyEvent aTag iMain iThanks iHead
        = (buildMessageCyberHerd ov item spots difference none none iMain iThanks iHead).map
            (fun b => { b with nostr_content :=
                (if truthyOpt replyEvent && truthyOpt aTag then
                  pyReplace b.nostr_content promoTrailer ""
                else b.nostr_content) }))
    ∧ (∃ bundle, buildMessageCyberHerd [] { display_name := some "Alice" } 0 21
          (some "ev") (some "30311:pk:id") 0 0 0 = some bundle
        ∧ pyContains bundle.nostr_content promoTrailer = false
        ∧ pyContains bundle.websocket_content promoTrailer = true) := by
  constructor
  · intro ov item spots difference replyEvent aTag iMain iThanks iHead
    simp only [buildMessageCyberHerd]
    cases h1 : pickTemplate (poolValues (poolLookup ov "cyber_herd_join" CYBER_HERD_JOIN)) iMain with
    | none => rfl
    | some template =>
      simp only [Option.some_bind]
      cases h2 : formatThanks (item.amount.getD 0) ov iThanks with
      | none => rfl
      | some thankYou =>
        simp only [Option.some_bind]
        cases h3 : buildSpotsAndHeadbutt spots item ov iHead with
        | none => rfl
        | some sh =>
          simp only [Option.some_bind, Option.map_some]
          simp [stripPromotionalLink, truthyOpt]
  · refine ⟨(buildMessageCyberHerd [] { display_name := some "Alice" } 0 21
        (some "ev") (some "30311:pk:id") 0 0 0).get (by rfl), ?_, ?_, ?_⟩
    · exact (Option.some_get _).symm
    · rfl
    · rfl

set_option maxRecDepth 16384 in
/-- C3: `_extract_content_and_reply` attempts, in order, strict JSON
parse, Python-literal parse, single-quote-to-double-quote JSON repair,
strict quoted regex extraction, then loose regex extraction of
`content`/`reply_relay`; each stage's answer is returned exactly when
every earlier stage failed, and when all five stages fail on a string
that looks structurally like a wrapper (starts with a brace, ends with a
brace, contains a colon) the content is the empty string, never the raw
structured text. In particular the no-content wrapper
\x22\x7b'foo': 'bar', 'baz': 1\x7d\x22 extracts as empty, and a
single-quoted wrapper with content and reply_relay keys extracts both
fields. -/
theorem extract_content_cascade :
    (∀ raw res, stageJson (pyStrip raw) = some res →
      extractContentAndReply raw = res) ∧
    (∀ raw res, stageJson (pyStrip raw) = none →
      stageLit (pyStrip raw) = some res →
      extractContentAndReply raw = res) ∧
    (∀ raw res, stageJson (pyStrip raw) = none →
      stageLit (pyStrip raw) = none →
      stageQuoteSwap (pyStrip raw) = some res →
      extractContentAndReply raw = res) ∧
    (∀ raw r rr, stageJson (pyStrip raw) = none →
      stageLit (pyStrip raw) = none →
      stageQuoteSwap (pyStrip raw) = none →
      stageRegexStrict (pyStrip raw) = some (r, rr) →
      extractContentAndReply raw = (.pstr r, rr.map .pstr)) ∧
    (∀ raw r rr, stageJson (pyStrip raw) = none →
      stageLit (pyStrip raw) = none →
      stageQuoteSwap (pyStrip raw) = none →
      stageRegexStrict (pyStrip raw) = none →
      stageRegexLoose (pyStrip raw) = some (r, rr) →
      extractContentAndReply raw = (.pstr r, rr.map .pstr)) ∧
    (∀ raw, stageJson (pyStrip raw) = none →
      stageLit (pyStrip raw) = none →
      stageQuoteSwap (pyStrip raw) = none →
      stageRegexStrict (pyStrip raw) = none →
      stageRegexLoose (pyStrip raw) = none →
      (pyStartsWith (pyStrip raw) "\x7b" && pyEndsWith (pyStrip raw) "\x7d"
        && pyContains (pyStrip raw) ":") = true →
      extractContentAndReply raw = (.pstr "", none)) ∧
    extractContentAndReply "\x7b'foo': 'bar', 'baz': 1\x7d" = (.pstr "", none) ∧
    extractContentAndReply
        "\x7b'content': 'Hi \x7bname\x7d', 'reply_relay': 'http://r.example'\x7d" =
      (.pstr "Hi \x7bname\x7d", some (.pstr "http://r.example")) := by
  refine ⟨?_, ?_, ?_, ?_, ?_, ?_, ?_, ?_⟩
  · intro raw res h1
    simp only [extractContentAndReply, h1]
  · intro raw res h1 h2
    simp only [extractContentAndReply, h1, h2]
  · intro raw res h1 h2 h3
    simp only [extractContentAndReply, h1, h2, h3]
  · intro raw r rr h1 h2 h3 h4
    simp only [extractContentAndReply, h1, h2, h3, h4]
  · intro raw r rr h1 h2 h3 h4 h5
    simp only [extractContentAndReply, h1, h2, h3, h4, h5]
  · intro raw h1 h2 h3 h4 h5 hdict
    simp only [extractContentAndReply, h1, h2, h3, h4, h5, hdict, if_true]
  · rfl
  · rfl

set_option maxRecDepth 16384 in
/-- Witness: the cascade theorem applied at a concrete JSON wrapper,
whose first stage succeeds. -/
theorem extract_content_cascade_witness :
    extractContentAndReply "\x7b\x22content\x22: \x22X\x22\x7d" = (.pstr "X", none) :=
  extract_content_cascade.1 "\x7b\x22content\x22: \x22X\x22\x7d" (.pstr "X", none) (by rfl)

end CyberherdMessaging
